import Mathlib

/-!
Verification development for the Ghostkey SD-card keystroke-injection
firmware (script interpretation and keystroke-dispatch engine).

The firmware's Arduino C++ code is shallowly embedded here:

* an Arduino `String` is a byte sequence, modeled as `List Nat`
  (each element a byte value 0..255);
* the keyboard sink primitives `Keyboard.press`, `Keyboard.release`,
  `Keyboard.releaseAll`, `Keyboard.write` and every blocking `delay(ms)`
  call become constructors of an event type `Ev`; each embedded function
  returns the list of events it emits (and the updated interpreter state);
* `Serial` logging and LED `digitalWrite` status output are the external
  event sink of the design and emit no events (the `delay` calls inside
  LED flash helpers are kept, as they are real blocking sleeps);
* global mutable interpreter variables (`defaultDelay`,
  `repeatScriptMode`, `repeatScriptCount`, `currentRepeat`) become the
  explicit state `DuckyState`, and the `config` struct becomes `Config`.
-/

/-! ### Byte-string helpers (Arduino `String` operations) -/

/-- Bytes of a string literal (ASCII). -/
def S (s : String) : List Nat := s.data.map Char.toNat

/-- C `isspace`: space and the control characters 9..13. -/
def isSp (b : Nat) : Bool := b == 32 || (decide (9 ≤ b) && decide (b ≤ 13))

/-- Arduino `String::trim()`: strip leading and trailing whitespace. -/
def trimB (l : List Nat) : List Nat :=
  ((l.dropWhile isSp).reverse.dropWhile isSp).reverse

/-- Arduino `String::startsWith(p)`. -/
def startsWithB : List Nat → List Nat → Bool
  | [], _ => true
  | _ :: _, [] => false
  | a :: p, b :: l => a == b && startsWithB p l

/-- Arduino `String::indexOf(c)`: index of the first occurrence of byte
`c`, `none` when absent (the C++ version returns -1 then). -/
def indexOfChar (c : Nat) : List Nat → Option Nat
  | [] => none
  | b :: l => if b = c then some 0 else (indexOfChar c l).map (· + 1)

/-- ASCII `tolower` on a byte. -/
def lowerB (b : Nat) : Nat := if 65 ≤ b ∧ b ≤ 90 then b + 32 else b

/-- Arduino `String::equalsIgnoreCase`. -/
def eqIC (a b : List Nat) : Bool := a.map lowerB == b.map lowerB

/-- Digit-accumulation loop of `atol`: consume leading decimal digits. -/
def digitsVal : List Nat → Nat → Nat
  | [], acc => acc
  | b :: l, acc => if 48 ≤ b ∧ b ≤ 57 then digitsVal l (acc * 10 + (b - 48)) else acc

/-- Arduino `String::toInt()` (an `atol` on the trimmed parameter text):
optional leading minus sign, then leading decimal digits, 0 otherwise. -/
def toIntB : List Nat → Int
  | 45 :: l => -(digitsVal l 0 : Int)
  | l => (digitsVal l 0 : Int)

/-- C++ conversion of a (possibly negative) integer to the 32-bit
`unsigned long` expected by `delay` and `defaultDelay`. -/
def toUL (i : Int) : Nat := (i % (2 ^ 32)).toNat

/-! ### Keyboard-sink events

The abstract keyboard sink of the design accepts `press(keycode)`,
`release(keycode)`, `releaseAll()` and `writeLiteral(char)`.  `release`
is part of the Arduino Keyboard API but is never called by this
firmware; it is included so that "no individual release is ever
emitted" is a statable fact rather than a typing accident.  `delayEv`
records each blocking `delay(ms)` sleep. -/

inductive Ev : Type
  | press (k : Nat)
  | release (k : Nat)
  | releaseAll
  | write (c : Nat)
  | delayEv (ms : Nat)
deriving DecidableEq, Repr

/-- Keyboard events proper (presses, releases, literal writes) —
everything except the timing sleeps. -/
def isKeyEv : Ev → Bool
  | .press _ => true
  | .release _ => true
  | .releaseAll => true
  | .write _ => true
  | .delayEv _ => false

/-- The keyboard events of a trace, in order. -/
def keyEvents (tr : List Ev) : List Ev := tr.filter isKeyEv

def isPressEv : Ev → Bool
  | .press _ => true
  | _ => false

def isRelEv : Ev → Bool
  | .release _ => true
  | _ => false

def notRA : Ev → Bool
  | .releaseAll => false
  | _ => true

/-- One step of the host-side "keys currently down" set. -/
def downStep (s : Finset Nat) : Ev → Finset Nat
  | .press k => insert k s
  | .release k => s.erase k
  | .releaseAll => ∅
  | _ => s

/-- The set of keys down after a trace, starting from no keys down. -/
def downF (tr : List Ev) : Finset Nat := tr.foldl downStep ∅

/-- Event concatenation over the characters of a byte string. -/
def evConcat (f : Nat → List Ev) : List Nat → List Ev
  | [] => []
  | c :: l => f c ++ evConcat f l

/-- Event concatenation over a list of byte strings. -/
def evConcatL (f : List Nat → List Ev) : List (List Nat) → List Ev
  | [] => []
  | t :: l => f t ++ evConcatL f l

/-! ### `lib/layout-utils.h`

USB HID keycodes `KEY_A = 4 .. KEY_Z = 29`, `KEY_1 = 30 .. KEY_9 = 38`,
`KEY_0 = 39` are given in the header itself; the Arduino Keyboard
library constants used by the firmware have their standard values
(`KEY_LEFT_CTRL = 128`, `KEY_LEFT_SHIFT = 129`, `KEY_LEFT_ALT = 130`,
`KEY_LEFT_GUI = 131`, `KEY_RETURN = 176`, `KEY_ESC = 177`,
`KEY_BACKSPACE = 178`, `KEY_TAB = 179`, `KEY_CAPS_LOCK = 193`,
`KEY_F1..KEY_F12 = 194..205`, `KEY_PRINT_SCREEN = 206`,
`KEY_PAUSE = 208`, `KEY_INSERT = 209`, `KEY_HOME = 210`,
`KEY_PAGE_UP = 211`, `KEY_DELETE = 212`, `KEY_END = 213`,
`KEY_PAGE_DOWN = 214`, `KEY_RIGHT_ARROW = 215`, `KEY_LEFT_ARROW = 216`,
`KEY_DOWN_ARROW = 217`, `KEY_UP_ARROW = 218`, `KEY_MENU = 237`). -/

/-- `pressRawKey(keycode, withShift)`: optional Shift press with its
250 ms registration delay, primary press, 250 ms hold, release-all,
50 ms settle. -/
def pressRawKey (k : Nat) (withShift : Bool) : List Ev :=
  (if withShift then [.press 129, .delayEv 250] else [])
    ++ [.press k, .delayEv 250, .releaseAll, .delayEv 50]

/-- `forceSendASCII(c)`: one literal write plus a 10 ms pause. -/
def forceSendASCII (c : Nat) : List Ev := [.write c, .delayEv 10]

/-- The character-to-(keycode, shift) table of
`typeLayoutIndependentChar`: the chained range tests followed by the
US-layout punctuation `switch`; unhandled characters map to `none`. -/
def mapChar (c : Nat) : Option (Nat × Bool) :=
  if 97 ≤ c ∧ c ≤ 122 then some (4 + (c - 97), false)
  else if 65 ≤ c ∧ c ≤ 90 then some (4 + (c - 65), true)
  else if 49 ≤ c ∧ c ≤ 57 then some (30 + (c - 49), false)
  else if c = 48 then some (39, false)
  else
    match c with
    | 33 => some (30, true)
    | 64 => some (31, true)
    | 35 => some (32, true)
    | 36 => some (33, true)
    | 37 => some (34, true)
    | 94 => some (35, true)
    | 38 => some (36, true)
    | 42 => some (37, true)
    | 40 => some (38, true)
    | 41 => some (39, true)
    | 45 => some (45, false)
    | 95 => some (45, true)
    | 61 => some (46, false)
    | 43 => some (46, true)
    | 91 => some (47, false)
    | 123 => some (47, true)
    | 93 => some (48, false)
    | 125 => some (48, true)
    | 92 => some (49, false)
    | 124 => some (49, true)
    | 59 => some (51, false)
    | 58 => some (51, true)
    | 39 => some (52, false)
    | 34 => some (52, true)
    | 96 => some (53, false)
    | 126 => some (53, true)
    | 44 => some (54, false)
    | 60 => some (54, true)
    | 46 => some (55, false)
    | 62 => some (55, true)
    | 47 => some (56, false)
    | 63 => some (56, true)
    | 32 => some (44, false)
    | _ => none

/-- `typeLayoutIndependentChar(c)`: map the character and send it via
`pressRawKey`; unmapped characters emit nothing (the `default: return`
case — every mapped keycode is positive, so the `keycode > 0` guard
always passes for mapped characters). -/
def typeLayoutIndependentChar (c : Nat) : List Ev :=
  match mapChar c with
  | some (k, sh) => pressRawKey k sh
  | none => []

/-- `typeLayoutIndependent(text)`: per character, layout-independent
emission plus a 20 ms inter-character delay. -/
def typeLayoutIndependent (text : List Nat) : List Ev :=
  evConcat (fun c => typeLayoutIndependentChar c ++ [.delayEv 20]) text

/-- `typeLayoutIndependentWithDelay(text, delayMs)`. -/
def typeLayoutIndependentWithDelay (text : List Nat) (d : Nat) : List Ev :=
  evConcat (fun c => typeLayoutIndependentChar c ++ [.delayEv d]) text

/-- `typeDirectASCII(text)`: literal writes with a 20 ms pause each. -/
def typeDirectASCII (text : List Nat) : List Ev :=
  evConcat (fun c => forceSendASCII c ++ [.delayEv 20]) text

/-- `typeDirectASCIIWithDelay(text, delayMs)`. -/
def typeDirectASCIIWithDelay (text : List Nat) (d : Nat) : List Ev :=
  evConcat (fun c => forceSendASCII c ++ [.delayEv d]) text

/-- `Keyboard.print(text)`: the Arduino library writes each character
literally. -/
def kbPrint (text : List Nat) : List Ev := text.map .write

/-- `Keyboard.println(text)`: `print` followed by CR LF. -/
def kbPrintln (text : List Nat) : List Ev := kbPrint text ++ [.write 13, .write 10]

/-- `TYPING_DELAY` constant of the main sketch (25 ms). -/
def TYPING_DELAY : Nat := 25

/-- `typeWithDelay(text)` of the main sketch: literal writes separated
by `TYPING_DELAY`. -/
def typeWithDelay (text : List Nat) : List Ev :=
  evConcat (fun c => [.write c, .delayEv TYPING_DELAY]) text

/-! ### Documented keycode coverage (spec side, for claim C5)

`docSet` is the character set the specification documents as covered:
lowercase a–z, uppercase A–Z, digits 1–9 and 0, the listed punctuation
and space.  `docPair` is the documented (keycode, shift) table written
out entry by entry: letters per the header's `KEY_A..KEY_Z` comments
("a and A" share a keycode, uppercase shifted), digits per
`KEY_1..KEY_9, KEY_0` ("1 and !", ..., "0 and )"), and the US-layout
punctuation pairs. -/

def docSet : List Nat :=
  List.range' 97 26 ++ List.range' 65 26 ++ List.range' 48 10 ++
    [33, 64, 35, 36, 37, 94, 38, 42, 40, 41, 45, 95, 61, 43, 91, 123,
     93, 125, 92, 124, 59, 58, 39, 34, 96, 126, 44, 60, 46, 62, 47, 63, 32]

def docPair (c : Nat) : Option (Nat × Bool) :=
  match c with
  | 97 => some (4, false)
  | 98 => some (5, false)
  | 99 => some (6, false)
  | 100 => some (7, false)
  | 101 => some (8, false)
  | 102 => some (9, false)
  | 103 => some (10, false)
  | 104 => some (11, false)
  | 105 => some (12, false)
  | 106 => some (13, false)
  | 107 => some (14, false)
  | 108 => some (15, false)
  | 109 => some (16, false)
  | 110 => some (17, false)
  | 111 => some (18, false)
  | 112 => some (19, false)
  | 113 => some (20, false)
  | 114 => some (21, false)
  | 115 => some (22, false)
  | 116 => some (23, false)
  | 117 => some (24, false)
  | 118 => some (25, false)
  | 119 => some (26, false)
  | 120 => some (27, false)
  | 121 => some (28, false)
  | 122 => some (29, false)
  | 65 => some (4, true)
  | 66 => some (5, true)
  | 67 => some (6, true)
  | 68 => some (7, true)
  | 69 => some (8, true)
  | 70 => some (9, true)
  | 71 => some (10, true)
  | 72 => some (11, true)
  | 73 => some (12, true)
  | 74 => some (13, true)
  | 75 => some (14, true)
  | 76 => some (15, true)
  | 77 => some (16, true)
  | 78 => some (17, true)
  | 79 => some (18, true)
  | 80 => some (19, true)
  | 81 => some (20, true)
  | 82 => some (21, true)
  | 83 => some (22, true)
  | 84 => some (23, true)
  | 85 => some (24, true)
  | 86 => some (25, true)
  | 87 => some (26, true)
  | 88 => some (27, true)
  | 89 => some (28, true)
  | 90 => some (29, true)
  | 49 => some (30, false)
  | 50 => some (31, false)
  | 51 => some (32, false)
  | 52 => some (33, false)
  | 53 => some (34, false)
  | 54 => some (35, false)
  | 55 => some (36, false)
  | 56 => some (37, false)
  | 57 => some (38, false)
  | 48 => some (39, false)
  | 33 => some (30, true)
  | 64 => some (31, true)
  | 35 => some (32, true)
  | 36 => some (33, true)
  | 37 => some (34, true)
  | 94 => some (35, true)
  | 38 => some (36, true)
  | 42 => some (37, true)
  | 40 => some (38, true)
  | 41 => some (39, true)
  | 45 => some (45, false)
  | 95 => some (45, true)
  | 61 => some (46, false)
  | 43 => some (46, true)
  | 91 => some (47, false)
  | 123 => some (47, true)
  | 93 => some (48, false)
  | 125 => some (48, true)
  | 92 => some (49, false)
  | 124 => some (49, true)
  | 59 => some (51, false)
  | 58 => some (51, true)
  | 39 => some (52, false)
  | 34 => some (52, true)
  | 96 => some (53, false)
  | 126 => some (53, true)
  | 44 => some (54, false)
  | 60 => some (54, true)
  | 46 => some (55, false)
  | 62 => some (55, true)
  | 47 => some (56, false)
  | 63 => some (56, true)
  | 32 => some (44, false)
  | _ => none

/-! ### Interpreter state and configuration -/

/-- The global mutable interpreter variables of the sketch. -/
structure DuckyState : Type where
  defaultDelay : Nat
  repeatScriptMode : Bool
  repeatScriptCount : Int
  currentRepeat : Int
deriving DecidableEq, Repr

/-- The fields of the `config` struct that the interpretation engine
reads (`scriptMode`, `typingDelay`, `useLayoutIndependent`; the
remaining fields drive storage lookup and logging only). -/
structure Config : Type where
  scriptMode : Nat
  typingDelay : Nat
  useLayoutIndependent : Bool
deriving DecidableEq, Repr

/-- The compiled-in default configuration (Ducky script mode, 25 ms
typing delay, layout-independent typing enabled). -/
def cfg0 : Config := ⟨1, 25, true⟩

/-- Interpreter state at startup: `defaultDelay = 0`, repeat off. -/
def st0 : DuckyState := ⟨0, false, 0, 0⟩

/-- The compile-time constant `USE_LAYOUT_INDEPENDENT` of the sketch. -/
def USE_LAYOUT_INDEPENDENT : Bool := true

/-! ### `pressKey` (press a key given by its string name) -/

/-- The named-key table of `pressKey`'s if/else chain (exact,
case-sensitive matches; `SPACE` is handled separately because its
layout-independent branch calls `pressRawKey`). -/
def namedKey (t : List Nat) : Option Nat :=
  if t = S "CTRL" ∨ t = S "CONTROL" then some 128
  else if t = S "SHIFT" then some 129
  else if t = S "ALT" then some 130
  else if t = S "GUI" ∨ t = S "WINDOWS" then some 131
  else if t = S "ENTER" then some 176
  else if t = S "BACKSPACE" then some 178
  else if t = S "TAB" then some 179
  else if t = S "CAPSLOCK" then some 193
  else if t = S "DELETE" then some 212
  else if t = S "END" then some 213
  else if t = S "ESC" ∨ t = S "ESCAPE" then some 177
  else if t = S "HOME" then some 210
  else if t = S "INSERT" then some 209
  else if t = S "PAGEUP" then some 211
  else if t = S "PAGEDOWN" then some 214
  else if t = S "PRINTSCREEN" then some 206
  else if t = S "F1" then some 194
  else if t = S "F2" then some 195
  else if t = S "F3" then some 196
  else if t = S "F4" then some 197
  else if t = S "F5" then some 198
  else if t = S "F6" then some 199
  else if t = S "F7" then some 200
  else if t = S "F8" then some 201
  else if t = S "F9" then some 202
  else if t = S "F10" then some 203
  else if t = S "F11" then some 204
  else if t = S "F12" then some 205
  else if t = S "UP" ∨ t = S "UPARROW" then some 218
  else if t = S "DOWN" ∨ t = S "DOWNARROW" then some 217
  else if t = S "LEFT" ∨ t = S "LEFTARROW" then some 216
  else if t = S "RIGHT" ∨ t = S "RIGHTARROW" then some 215
  else if t = S "PAUSE" ∨ t = S "BREAK" then some 208
  else if t = S "MENU" ∨ t = S "APP" then some 237
  else none

/-- `pressKey(keyString)`: trim; a single character goes through
`typeLayoutIndependentChar` when `USE_LAYOUT_INDEPENDENT` (else a plain
press of its ASCII value); `SPACE` presses raw keycode 44 in
layout-independent mode; other known names press their keycode; unknown
names emit nothing. -/
def pressKey (ks : List Nat) : List Ev :=
  let t := trimB ks
  if t.length = 1 then
    if USE_LAYOUT_INDEPENDENT then typeLayoutIndependentChar (t.headD 0)
    else [.press (t.headD 0)]
  else if t = S "SPACE" then
    if USE_LAYOUT_INDEPENDENT then pressRawKey 44 false else [.press 32]
  else
    match namedKey t with
    | some k => [.press k]
    | none => []

/-! ### Ducky-dialect parsing and dispatch (`processDuckyLine`) -/

/-- Ducky-dialect split of a (trimmed) line: at the first space when
present — both halves trimmed — else the whole line is the command with
empty parameters. -/
def parseDucky (t : List Nat) : List Nat × List Nat :=
  match indexOfChar 32 t with
  | some i => (trimB (t.take i), trimB (t.drop (i + 1)))
  | none => (t, [])

/-- The `'+'`-combination tokenizer (lines 1704-1719 of the sketch):
collect substrings between `'+'` occurrences while fewer than 5 tokens
have been taken, then append the non-empty remainder if still below the
cap.  The recursion is on the remaining token budget. -/
def comboGo : Nat → List Nat → List (List Nat)
  | 0, _ => []
  | n + 1, s =>
    match indexOfChar 43 s with
    | some i => s.take i :: comboGo n (s.drop (i + 1))
    | none => if s = [] then [] else [s]

def comboTokens (line : List Nat) : List (List Nat) := comboGo 5 line

/-- The `'+'`-combination branch: press every collected token via
`pressKey`, then one `releaseAll`. -/
def comboBranch (line : List Nat) : List Ev :=
  evConcatL pressKey (comboTokens line) ++ [.releaseAll]

/-- The `STRING` handler. -/
def duckySTRING (cfg : Config) (params : List Nat) : List Ev :=
  if cfg.useLayoutIndependent then typeLayoutIndependent params
  else kbPrint params

/-- The `STRINGLN` handler (trailing Return with 50 ms settle before
and while holding it, released by a release-all). -/
def duckySTRINGLN (cfg : Config) (params : List Nat) : List Ev :=
  if cfg.useLayoutIndependent then
    typeLayoutIndependent params ++ [.delayEv 50, .press 176, .delayEv 50, .releaseAll]
  else kbPrintln params

/-- The `GUI`/`WINDOWS` handler. -/
def duckyGUI (cfg : Config) (params : List Nat) : List Ev :=
  if 0 < params.length then
    [.press 131, .delayEv 50] ++
      (if params.length = 1 then
        (if cfg.useLayoutIndependent ∧ 97 ≤ params.headD 0 ∧ params.headD 0 ≤ 122 then
          [.press (4 + (params.headD 0 - 97)), .delayEv 100, .releaseAll]
        else [.press (params.headD 0), .delayEv 100, .releaseAll])
      else pressKey params ++ [.delayEv 100, .releaseAll])
  else [.press 131, .delayEv 100, .releaseAll]

/-- The `SHIFT` handler.  A single lowercase letter is written directly
as its uppercase ASCII value (no press, no release-all); a single
non-letter goes through press-Shift / press / release-all (raw digit
keycodes in layout-independent mode); named keys press Shift then the
key (arrows and TAB matched case-insensitively with direct keycodes,
anything else through `pressKey`). -/
def duckySHIFT (cfg : Config) (params : List Nat) : List Ev :=
  if 0 < params.length then
    if params.length = 1 then
      let key := params.headD 0
      if 97 ≤ key ∧ key ≤ 122 then [.write (key - 32), .delayEv 50]
      else
        [.press 129, .delayEv 250] ++
          (if cfg.useLayoutIndependent ∧ 48 ≤ key ∧ key ≤ 57 then
            [.press (if key = 48 then 39 else 30 + (key - 49))]
          else [.press key]) ++
          [.delayEv 250, .releaseAll, .delayEv 50]
    else
      [.press 129, .delayEv 250] ++
        (if eqIC params (S "RIGHT") ∨ eqIC params (S "RIGHTARROW") then [.press 215]
        else if eqIC params (S "LEFT") ∨ eqIC params (S "LEFTARROW") then [.press 216]
        else if eqIC params (S "UP") ∨ eqIC params (S "UPARROW") then [.press 218]
        else if eqIC params (S "DOWN") ∨ eqIC params (S "DOWNARROW") then [.press 217]
        else if eqIC params (S "TAB") then [.press 179]
        else pressKey params) ++
        [.delayEv 250, .releaseAll, .delayEv 50]
  else [.press 129, .delayEv 250, .releaseAll, .delayEv 50]

/-- The `ALT` handler. -/
def duckyALT (cfg : Config) (params : List Nat) : List Ev :=
  if 0 < params.length then
    [.press 130, .delayEv 200] ++
      (if params.length = 1 then
        (if cfg.useLayoutIndependent ∧ 97 ≤ params.headD 0 ∧ params.headD 0 ≤ 122 then
          [.press (4 + (params.headD 0 - 97)), .delayEv 200, .releaseAll]
        else [.press (params.headD 0), .delayEv 200, .releaseAll])
      else pressKey params ++ [.delayEv 200, .releaseAll])
  else [.press 130, .delayEv 200, .releaseAll]

/-- The `CTRL`/`CONTROL` handler. -/
def duckyCTRL (cfg : Config) (params : List Nat) : List Ev :=
  if 0 < params.length then
    [.press 128, .delayEv 200] ++
      (if params.length = 1 then
        (if cfg.useLayoutIndependent ∧ 97 ≤ params.headD 0 ∧ params.headD 0 ≤ 122 then
          [.press (4 + (params.headD 0 - 97)), .delayEv 200, .releaseAll]
        else [.press (params.headD 0), .delayEv 200, .releaseAll])
      else pressKey params ++ [.delayEv 200, .releaseAll])
  else [.press 128, .delayEv 200, .releaseAll]

/-- The command dispatch chain of `processDuckyLine` (lines 1266-1728),
in source order; `line` is the trimmed line, used by the final
`'+'`-combination fallback. -/
def duckyDispatch (cfg : Config) (st : DuckyState) (line cmd params : List Nat) :
    DuckyState × List Ev :=
  if cmd = S "DEFAULT_DELAY" ∨ cmd = S "DEFAULTDELAY" then
    ({ st with defaultDelay := toUL (toIntB params) }, [])
  else if cmd = S "DELAY" then (st, [.delayEv (toUL (toIntB params))])
  else if cmd = S "STRING" then (st, duckySTRING cfg params)
  else if cmd = S "STRINGLN" then (st, duckySTRINGLN cfg params)
  else if cmd = S "REPEAT" then
    ({ st with repeatScriptMode := true,
               repeatScriptCount := if toIntB params = 0 then 1 else toIntB params }, [])
  else if cmd = S "GUI" ∨ cmd = S "WINDOWS" then (st, duckyGUI cfg params)
  else if cmd = S "MENU" ∨ cmd = S "APP" then (st, [.press 237, .releaseAll])
  else if cmd = S "SHIFT" then (st, duckySHIFT cfg params)
  else if cmd = S "ALT" then (st, duckyALT cfg params)
  else if cmd = S "CTRL" ∨ cmd = S "CONTROL" then (st, duckyCTRL cfg params)
  else if cmd = S "ENTER" then (st, [.press 176, .delayEv 50, .releaseAll])
  else if cmd = S "SPACE" then
    (st, if cfg.useLayoutIndependent then pressRawKey 44 false
         else [.press 32, .delayEv 50, .releaseAll])
  else if cmd = S "BACKSPACE" then (st, [.press 178, .delayEv 200, .releaseAll, .delayEv 50])
  else if cmd = S "TAB" then (st, [.press 179, .delayEv 200, .releaseAll, .delayEv 50])
  else if cmd = S "CAPSLOCK" then (st, [.press 193, .delayEv 50, .releaseAll])
  else if cmd = S "DELETE" then (st, [.press 212, .delayEv 50, .releaseAll])
  else if cmd = S "END" then (st, [.press 213, .delayEv 50, .releaseAll])
  else if cmd = S "ESC" ∨ cmd = S "ESCAPE" then (st, [.press 177, .delayEv 50, .releaseAll])
  else if cmd = S "HOME" then (st, [.press 210, .delayEv 50, .releaseAll])
  else if cmd = S "INSERT" then (st, [.press 209, .delayEv 50, .releaseAll])
  else if cmd = S "PAGEUP" then (st, [.press 211, .delayEv 50, .releaseAll])
  else if cmd = S "PAGEDOWN" then (st, [.press 214, .delayEv 50, .releaseAll])
  else if cmd = S "PRINTSCREEN" then (st, [.press 206, .releaseAll])
  else if cmd = S "F1" then (st, [.press 194, .releaseAll])
  else if cmd = S "F2" then (st, [.press 195, .releaseAll])
  else if cmd = S "F3" then (st, [.press 196, .releaseAll])
  else if cmd = S "F4" then (st, [.press 197, .releaseAll])
  else if cmd = S "F5" then (st, [.press 198, .releaseAll])
  else if cmd = S "F6" then (st, [.press 199, .releaseAll])
  else if cmd = S "F7" then (st, [.press 200, .releaseAll])
  else if cmd = S "F8" then (st, [.press 201, .releaseAll])
  else if cmd = S "F9" then (st, [.press 202, .releaseAll])
  else if cmd = S "F10" then (st, [.press 203, .releaseAll])
  else if cmd = S "F11" then (st, [.press 204, .releaseAll])
  else if cmd = S "F12" then (st, [.press 205, .releaseAll])
  else if cmd = S "UP" ∨ cmd = S "UPARROW" then (st, [.press 218, .delayEv 50, .releaseAll])
  else if cmd = S "DOWN" ∨ cmd = S "DOWNARROW" then (st, [.press 217, .delayEv 50, .releaseAll])
  else if cmd = S "LEFT" ∨ cmd = S "LEFTARROW" then (st, [.press 216, .delayEv 50, .releaseAll])
  else if cmd = S "RIGHT" ∨ cmd = S "RIGHTARROW" then (st, [.press 215, .delayEv 50, .releaseAll])
  else if cmd = S "PAUSE" ∨ cmd = S "BREAK" then (st, [.press 208, .delayEv 50, .releaseAll])
  else if (indexOfChar 43 line).isSome then (st, comboBranch line)
  else (st, [])

/-- `processDuckyLine(line)`: 25 ms activity blink, trim, early return
for `REM`-prefixed comments, otherwise space-split, dispatch, and the
trailing `delay(defaultDelay)` read from the (possibly updated)
interpreter state. -/
def processDuckyLine (cfg : Config) (st : DuckyState) (line : List Nat) :
    DuckyState × List Ev :=
  let t := trimB line
  if startsWithB (S "REM") t then (st, [.delayEv 25])
  else
    let cp := parseDucky t
    let r := duckyDispatch cfg st t cp.1 cp.2
    (r.1, .delayEv 25 :: (r.2 ++ [.delayEv r.1.defaultDelay]))

/-! ### Direct-ASCII variant (`processDuckyLine_DirectASCII`) -/

/-- Direct-ASCII `GUI`/`WINDOWS` handler: the key is written (not
pressed) for a single character, `r` matched case-insensitively,
anything else through `pressKey`; GUI held 200 ms around it. -/
def duckyGUIDirect (params : List Nat) : List Ev :=
  if 0 < params.length then
    [.press 131, .delayEv 200] ++
      (if params.length = 1 then [.write (params.headD 0)]
      else if eqIC params (S "r") then [.write 114]
      else pressKey params) ++
      [.delayEv 200, .releaseAll]
  else [.press 131, .delayEv 200, .releaseAll]

/-- Direct-ASCII `CTRL`/`CONTROL` handler: a single character is
pressed as its ASCII value; named parameters match the common letters
case-insensitively, else fall back to `pressKey`. -/
def duckyCTRLDirect (params : List Nat) : List Ev :=
  if 0 < params.length then
    if params.length = 1 then
      [.press 128, .delayEv 200, .press (params.headD 0), .delayEv 200, .releaseAll]
    else
      [.press 128, .delayEv 200] ++
        (if eqIC params (S "a") then [.press 97]
        else if eqIC params (S "c") then [.press 99]
        else if eqIC params (S "v") then [.press 118]
        else if eqIC params (S "x") then [.press 120]
        else if eqIC params (S "z") then [.press 122]
        else if eqIC params (S "y") then [.press 121]
        else if eqIC params (S "s") then [.press 115]
        else pressKey params) ++
        [.delayEv 200, .releaseAll]
  else [.press 128, .delayEv 200, .releaseAll]

/-- Direct-ASCII `ALT` handler. -/
def duckyALTDirect (params : List Nat) : List Ev :=
  if 0 < params.length then
    if params.length = 1 then
      [.press 130, .delayEv 200, .press (params.headD 0), .delayEv 200, .releaseAll]
    else [.press 130, .delayEv 200] ++ pressKey params ++ [.delayEv 200, .releaseAll]
  else [.press 130, .delayEv 200, .releaseAll]

/-- Direct-ASCII `SHIFT` handler: a single lowercase letter is written
directly as uppercase; digits and other single characters go through
press-Shift / press / release-all; named keys as in the standard
handler. -/
def duckySHIFTDirect (params : List Nat) : List Ev :=
  if 0 < params.length then
    if params.length = 1 then
      let key := params.headD 0
      if 97 ≤ key ∧ key ≤ 122 then [.write (key - 32)]
      else if 48 ≤ key ∧ key ≤ 57 then
        [.press 129, .delayEv 250, .press key, .delayEv 250, .releaseAll, .delayEv 50]
      else
        [.press 129, .delayEv 250, .press key, .delayEv 250, .releaseAll, .delayEv 50]
    else
      [.press 129, .delayEv 250] ++
        (if eqIC params (S "RIGHT") ∨ eqIC params (S "RIGHTARROW") then [.press 215]
        else if eqIC params (S "LEFT") ∨ eqIC params (S "LEFTARROW") then [.press 216]
        else if eqIC params (S "UP") ∨ eqIC params (S "UPARROW") then [.press 218]
        else if eqIC params (S "DOWN") ∨ eqIC params (S "DOWNARROW") then [.press 217]
        else if eqIC params (S "TAB") then [.press 179]
        else pressKey params) ++
        [.delayEv 250, .releaseAll, .delayEv 50]
  else [.press 129, .delayEv 250, .releaseAll, .delayEv 50]

/-- The command dispatch chain of `processDuckyLine_DirectASCII`
(`bypass-mode.ino`), in source order.  Note: it has no `REPEAT` handler
and no `'+'`-combination fallback — unrecognized commands are no-ops. -/
def duckyDispatchDirect (cfg : Config) (st : DuckyState) (cmd params : List Nat) :
    DuckyState × List Ev :=
  if cmd = S "DEFAULT_DELAY" ∨ cmd = S "DEFAULTDELAY" then
    ({ st with defaultDelay := toUL (toIntB params) }, [])
  else if cmd = S "DELAY" then (st, [.delayEv (toUL (toIntB params))])
  else if cmd = S "STRING" then (st, typeDirectASCII params)
  else if cmd = S "STRINGLN" then
    (st, typeDirectASCII params ++ [.delayEv 50, .write 176, .delayEv 50])
  else if cmd = S "ENTER" then (st, [.press 176, .delayEv 200, .releaseAll, .delayEv 50])
  else if cmd = S "GUI" ∨ cmd = S "WINDOWS" then (st, duckyGUIDirect params)
  else if cmd = S "CTRL" ∨ cmd = S "CONTROL" then (st, duckyCTRLDirect params)
  else if cmd = S "ALT" then (st, duckyALTDirect params)
  else if cmd = S "SHIFT" then (st, duckySHIFTDirect params)
  else if cmd = S "TAB" then (st, [.press 179, .delayEv 200, .releaseAll, .delayEv 50])
  else if cmd = S "BACKSPACE" then (st, [.press 178, .delayEv 200, .releaseAll, .delayEv 50])
  else (st, [])

/-- `processDuckyLine_DirectASCII(line)`: 25 ms activity blink, trim,
`REM` comment early-return, space-split, Direct-ASCII dispatch, then
the trailing `delay(defaultDelay)`. -/
def processDuckyLineDirect (cfg : Config) (st : DuckyState) (line : List Nat) :
    DuckyState × List Ev :=
  let t := trimB line
  if startsWithB (S "REM") t then (st, [.delayEv 25])
  else
    let cp := parseDucky t
    let r := duckyDispatchDirect cfg st cp.1 cp.2
    (r.1, .delayEv 25 :: (r.2 ++ [.delayEv r.1.defaultDelay]))

/-! ### Custom colon-delimited dialect (`processInstructionLine`)

`run()` and `admin()` live in `lib/simple-instructions.h`, which is not
part of the sources at hand (only `lib/complex-instructions.h` and the
main sketch call them). -/

/-- Modelled from the spec: `simple-instructions.h` is missing from the
sources; per the spec's window/process macros, `RUN` "opens the run
dialog" — GUI+R released together. -/
def runEv : List Ev := [.press 131, .press 114, .releaseAll]

/-- Modelled from the spec: `simple-instructions.h` is missing from the
sources; `ADMIN` "triggers elevation" — Ctrl+Shift+Enter released
together. -/
def adminEv : List Ev := [.press 128, .press 129, .press 176, .releaseAll]

/-- `typeCommand(text)` of `lib/complex-instructions.h` without
`SLOW_TYPING` (the main sketch does not define it): a
`Keyboard.println`. -/
def typeCommandEv (text : List Nat) : List Ev := kbPrintln text

/-- `openNotepad()`. -/
def openNotepadEv : List Ev := runEv ++ typeCommandEv (S "notepad") ++ [.delayEv 1000]

/-- `openPowerShell()`. -/
def openPowerShellEv : List Ev := runEv ++ typeCommandEv (S "powershell") ++ [.delayEv 1000]

/-- `openPowerShellAdmin()`. -/
def openPowerShellAdminEv : List Ev :=
  runEv ++ typeCommandEv (S "powershell") ++ adminEv ++ [.delayEv 1000]

/-- `openCmd()`. -/
def openCmdEv : List Ev := runEv ++ typeCommandEv (S "cmd") ++ [.delayEv 1000]

/-- `openCmdAdmin()`. -/
def openCmdAdminEv : List Ev := runEv ++ typeCommandEv (S "cmd") ++ adminEv ++ [.delayEv 1000]

/-- Modelled from the spec: `killApp()` is not in the sources; the spec
lists it among the fixed canned window/process macros (close the
foreground application, Alt+F4 released together). -/
def killAppEv : List Ev := [.press 130, .press 197, .releaseAll]

/-- Modelled from the spec: `minimize()` is not in the sources; a fixed
canned sequence (GUI+DownArrow released together). -/
def minimizeEv : List Ev := [.press 131, .press 217, .releaseAll]

/-- Modelled from the spec: `killall()` is not in the sources; a fixed
canned sequence (GUI+M released together). -/
def killallEv : List Ev := [.press 131, .press 109, .releaseAll]

/-- Custom-dialect split of a line: at the first `':'` when present —
both halves trimmed — else the whole line is a bare command with empty
parameters. -/
def parseCustom (line : List Nat) : List Nat × List Nat :=
  match indexOfChar 58 line with
  | some i => (trimB (line.take i), trimB (line.drop (i + 1)))
  | none => (line, [])

/-- The command dispatch chain of `processInstructionLine` (lines
1154-1220), in source order; every command name comparison is
`equalsIgnoreCase`. -/
def instrDispatch (cfg : Config) (cmd params : List Nat) : List Ev :=
  if eqIC cmd (S "DELAY") then [.delayEv (toUL (toIntB params))]
  else if eqIC cmd (S "RUN") then runEv
  else if eqIC cmd (S "ADMIN") then adminEv
  else if eqIC cmd (S "TYPE") then
    (if cfg.useLayoutIndependent then typeLayoutIndependent params else kbPrint params)
  else if eqIC cmd (S "TYPELINE") then
    (if cfg.useLayoutIndependent then typeLayoutIndependent params ++ [.press 176, .releaseAll]
     else kbPrintln params)
  else if eqIC cmd (S "TYPESOFT") then
    (if cfg.useLayoutIndependent then typeLayoutIndependentWithDelay params cfg.typingDelay
     else typeWithDelay params)
  else if eqIC cmd (S "OPENNOTPAD") then openNotepadEv
  else if eqIC cmd (S "OPENPOWERSHELL") then openPowerShellEv
  else if eqIC cmd (S "OPENPOWERSHELLADMIN") then openPowerShellAdminEv
  else if eqIC cmd (S "OPENCMD") then openCmdEv
  else if eqIC cmd (S "OPENCMDADMIN") then openCmdAdminEv
  else if eqIC cmd (S "KILLAPP") then killAppEv
  else if eqIC cmd (S "MINIMIZE") then minimizeEv
  else if eqIC cmd (S "KILLALL") then killallEv
  else if eqIC cmd (S "KEY") then
    (if eqIC params (S "RETURN") ∨ eqIC params (S "ENTER") then [.press 176, .releaseAll]
     else if eqIC params (S "TAB") then [.press 179, .releaseAll]
     else [])
  else []

/-- `processInstructionLine(line)`: 50 ms activity blink, colon-split,
case-insensitive dispatch, trailing `delay(defaultDelay)`.  No handler
of this dialect mutates the interpreter state. -/
def processInstructionLine (cfg : Config) (st : DuckyState) (line : List Nat) :
    DuckyState × List Ev :=
  let cp := parseCustom line
  (st, .delayEv 50 :: (instrDispatch cfg cp.1 cp.2 ++ [.delayEv st.defaultDelay]))

/-! ### Interpreter driver (`setup`'s script-execution loop) -/

/-- The per-pass execution summary printed by the driver. -/
structure Summary : Type where
  lineCount : Nat
  executedCount : Nat
  skippedCount : Nat
deriving DecidableEq, Repr

/-- `flashLED(led, times, duration)`: each flash is LED-on, sleep,
LED-off, sleep — two blocking sleeps per flash. -/
def flashEv (times duration : Nat) : List Ev :=
  List.replicate (2 * times) (.delayEv duration)

/-- The standard line-by-line execution loop of `setup` (lines
1014-1057): trim; blank lines and `//`- or `#`-prefixed lines are
skipped; in Ducky mode (`scriptMode = 1`) non-`REM` lines are processed
and counted executed, `REM` lines counted skipped; in custom mode
(`scriptMode = 0`) every remaining line is processed and counted
executed.  (In any other mode a remaining line only bumps the line
counter, mirroring the fall-through of the source's `else if` chain.) -/
def runStdGo (cfg : Config) : DuckyState → Summary → List Ev → List (List Nat) →
    DuckyState × Summary × List Ev
  | st, sum, evs, [] => (st, sum, evs)
  | st, sum, evs, line :: rest =>
    let t := trimB line
    let sum1 : Summary := { sum with lineCount := sum.lineCount + 1 }
    if t ≠ [] ∧ startsWithB (S "//") t = false ∧ startsWithB (S "#") t = false then
      if cfg.scriptMode = 1 ∧ startsWithB (S "REM") t = false then
        let r := processDuckyLine cfg st t
        runStdGo cfg r.1 { sum1 with executedCount := sum1.executedCount + 1 }
          (evs ++ r.2) rest
      else if cfg.scriptMode = 0 then
        let r := processInstructionLine cfg st t
        runStdGo cfg r.1 { sum1 with executedCount := sum1.executedCount + 1 }
          (evs ++ r.2) rest
      else if cfg.scriptMode = 1 ∧ startsWithB (S "REM") t = true then
        runStdGo cfg st { sum1 with skippedCount := sum1.skippedCount + 1 } evs rest
      else runStdGo cfg st sum1 evs rest
    else runStdGo cfg st { sum1 with skippedCount := sum1.skippedCount + 1 } evs rest

/-- The standard execution loop over a whole script. -/
def runStandardLoop (cfg : Config) (st : DuckyState) (lines : List (List Nat)) :
    DuckyState × Summary × List Ev :=
  runStdGo cfg st ⟨0, 0, 0⟩ [] lines

/-- The line loop of `executeScript_DirectASCII`: trim; blank, `//`,
`#` and `REM` lines are skipped (no counters are kept); everything else
goes to the Direct-ASCII processor. -/
def execDirectGo (cfg : Config) : DuckyState → List Ev → List (List Nat) →
    DuckyState × List Ev
  | st, evs, [] => (st, evs)
  | st, evs, line :: rest =>
    let t := trimB line
    if t ≠ [] ∧ startsWithB (S "//") t = false ∧ startsWithB (S "#") t = false then
      if startsWithB (S "REM") t = false then
        let r := processDuckyLineDirect cfg st t
        execDirectGo cfg r.1 (evs ++ r.2) rest
      else execDirectGo cfg st evs rest
    else execDirectGo cfg st evs rest

/-- `executeScript_DirectASCII(scriptFile)` on an opened script. -/
def executeScriptDirectASCII (cfg : Config) (st : DuckyState) (lines : List (List Nat)) :
    DuckyState × List Ev :=
  execDirectGo cfg st [] lines

/-- One iteration of `setup`'s do/while body as built (file opens
successfully): the repeat-iteration preamble (1 s wait plus two LED
flashes) when this is not the first pass, the file-opened flash, then —
because `useDirectASCII` is forced `true` at line 1000 — the
Direct-ASCII execution, with the counters overridden to the hard-coded
`lineCount = 1, executedCount = 1, skippedCount = 0` (lines 1009-1011),
the completion LED hold (1 s), and `currentRepeat++`. -/
def driverPassAsBuilt (cfg : Config) (st : DuckyState) (lines : List (List Nat)) :
    DuckyState × Summary × List Ev :=
  let pre := if st.repeatScriptMode ∧ 0 < st.currentRepeat
    then [.delayEv 1000] ++ flashEv 2 100 else []
  let r := executeScriptDirectASCII cfg st lines
  ({ r.1 with currentRepeat := r.1.currentRepeat + 1 }, ⟨1, 1, 0⟩,
    pre ++ flashEv 2 200 ++ r.2 ++ [.delayEv 1000])

/-- One iteration of the do/while body with the standard counting loop
(the `else` branch of `if (useDirectASCII)`). -/
def driverPassStd (cfg : Config) (st : DuckyState) (lines : List (List Nat)) :
    DuckyState × Summary × List Ev :=
  let pre := if st.repeatScriptMode ∧ 0 < st.currentRepeat
    then [.delayEv 1000] ++ flashEv 2 100 else []
  let r := runStandardLoop cfg st lines
  ({ r.1 with currentRepeat := r.1.currentRepeat + 1 }, r.2.1,
    pre ++ flashEv 2 200 ++ r.2.2 ++ [.delayEv 1000])

/-- The do/while repeat loop around the as-built pass:
`while (repeatScriptMode && (repeatScriptCount == 0 ||
currentRepeat < repeatScriptCount))`, re-running the same script.  The
fuel bounds the number of passes (the source loops unboundedly when
`repeatScriptCount = 0`). -/
def driverLoopAsBuilt (cfg : Config) : Nat → DuckyState → List (List Nat) →
    DuckyState × List Summary × List Ev
  | 0, st, _ => (st, [], [])
  | fuel + 1, st, lines =>
    let p := driverPassAsBuilt cfg st lines
    if p.1.repeatScriptMode ∧ (p.1.repeatScriptCount = 0 ∨ p.1.currentRepeat < p.1.repeatScriptCount) then
      let q := driverLoopAsBuilt cfg fuel p.1 lines
      (q.1, p.2.1 :: q.2.1, p.2.2 ++ q.2.2)
    else (p.1, [p.2.1], p.2.2)

/-- The do/while repeat loop around the standard counting pass. -/
def driverLoopStd (cfg : Config) : Nat → DuckyState → List (List Nat) →
    DuckyState × List Summary × List Ev
  | 0, st, _ => (st, [], [])
  | fuel + 1, st, lines =>
    let p := driverPassStd cfg st lines
    if p.1.repeatScriptMode ∧ (p.1.repeatScriptCount = 0 ∨ p.1.currentRepeat < p.1.repeatScriptCount) then
      let q := driverLoopStd cfg fuel p.1 lines
      (q.1, p.2.1 :: q.2.1, p.2.2 ++ q.2.2)
    else (p.1, [p.2.1], p.2.2)

/-! ### Unknown commands -/

/-- The command names recognized by `processDuckyLine`'s dispatch chain
(every `command.equals(...)` test, in chain order). -/
def duckyCommandNames : List (List Nat) :=
  [S "DEFAULT_DELAY", S "DEFAULTDELAY", S "DELAY", S "STRING", S "STRINGLN",
   S "REPEAT", S "GUI", S "WINDOWS", S "MENU", S "APP", S "SHIFT", S "ALT",
   S "CTRL", S "CONTROL", S "ENTER", S "SPACE", S "BACKSPACE", S "TAB",
   S "CAPSLOCK", S "DELETE", S "END", S "ESC", S "ESCAPE", S "HOME",
   S "INSERT", S "PAGEUP", S "PAGEDOWN", S "PRINTSCREEN", S "F1", S "F2",
   S "F3", S "F4", S "F5", S "F6", S "F7", S "F8", S "F9", S "F10", S "F11",
   S "F12", S "UP", S "UPARROW", S "DOWN", S "DOWNARROW", S "LEFT",
   S "LEFTARROW", S "RIGHT", S "RIGHTARROW", S "PAUSE", S "BREAK"]

/-- A command token is in `processDuckyLine`'s dispatch table. -/
def duckyKnown (cmd : List Nat) : Prop := cmd ∈ duckyCommandNames

instance (cmd : List Nat) : Decidable (duckyKnown cmd) := by
  unfold duckyKnown; infer_instance

/-- The command names recognized by the Direct-ASCII dispatch chain. -/
def duckyDirectCommandNames : List (List Nat) :=
  [S "DEFAULT_DELAY", S "DEFAULTDELAY", S "DELAY", S "STRING", S "STRINGLN",
   S "ENTER", S "GUI", S "WINDOWS", S "CTRL", S "CONTROL", S "ALT", S "SHIFT",
   S "TAB", S "BACKSPACE"]

/-- A command token is in the Direct-ASCII dispatch table. -/
def duckyDirectKnown (cmd : List Nat) : Prop := cmd ∈ duckyDirectCommandNames

instance (cmd : List Nat) : Decidable (duckyDirectKnown cmd) := by
  unfold duckyDirectKnown; infer_instance

/-! ### The `'+'` tokenizer versus a plain split-on-`'+'` -/

/-- Plain split of a byte string at every occurrence of `c` (keeping
empty segments, as `String.splitOn` would). -/
def splitOnB (c : Nat) : List Nat → List (List Nat)
  | [] => [[]]
  | b :: l =>
    if b = c then [] :: splitOnB c l
    else
      match splitOnB c l with
      | t :: ts => (b :: t) :: ts
      | [] => [[b]]

/-- Drop a trailing empty segment, if any (the C++ loop never stores
the remainder following a final `'+'` when it is empty). -/
def dropTrailingNil (ts : List (List Nat)) : List (List Nat) :=
  if ts.getLast? = some ([] : List Nat) then ts.dropLast else ts

/-! ### Modifier-combo emission invariant (for claim C8) -/

/-- An optional primary key as a key set. -/
def pset : Option Nat → Finset Nat
  | some k => {k}
  | none => ∅

/-- The modifier-combo contract for one emission trace, with requested
modifier set `mods` and primary key `p` (if any):

* no individual `release` is ever emitted;
* the set of keys down just before the first release-all — the instant
  the primary key (the last key pressed before the release-all) is
  down — is exactly `mods` plus the primary key;
* nothing is pressed from the first release-all onwards, so every key
  pressed for the combo is released together by the release-all, never
  individually;
* after the trace the down-set is empty. -/
def comboOK (mods : Finset Nat) (p : Option Nat) (tr : List Ev) : Prop :=
  (∀ e ∈ tr, isRelEv e = false)
  ∧ downF ((keyEvents tr).takeWhile notRA) = mods ∪ pset p
  ∧ ((keyEvents tr).dropWhile notRA).all (fun e => !isPressEv e) = true
  ∧ downF (keyEvents tr) = ∅

/-- The primary key the `GUI`/`ALT`/`CTRL` handlers press for a given
parameter string: a single character resolves through the raw-keycode
rule for lowercase letters in layout-independent mode, a named
parameter through `pressKey` (`SPACE` presses raw keycode 44), and an
unknown name or an empty parameter presses nothing. -/
def modParamPrimary (cfg : Config) (p : List Nat) : Option Nat :=
  if p = [] then none
  else if p.length = 1 then
    some (if cfg.useLayoutIndependent ∧ 97 ≤ p.headD 0 ∧ p.headD 0 ≤ 122
      then 4 + (p.headD 0 - 97) else p.headD 0)
  else if p = S "SPACE" then some 44
  else namedKey p

/-- The primary key the `SHIFT` handler presses for a given parameter
(single lowercase letters excluded — they bypass the state machine):
digits resolve to raw keycodes in layout-independent mode, arrows and
TAB are matched case-insensitively, the rest goes through `pressKey`. -/
def shiftParamPrimary (cfg : Config) (p : List Nat) : Option Nat :=
  if p = [] then none
  else if p.length = 1 then
    some (if cfg.useLayoutIndependent ∧ 48 ≤ p.headD 0 ∧ p.headD 0 ≤ 57
      then (if p.headD 0 = 48 then 39 else 30 + (p.headD 0 - 49)) else p.headD 0)
  else if eqIC p (S "RIGHT") ∨ eqIC p (S "RIGHTARROW") then some 215
  else if eqIC p (S "LEFT") ∨ eqIC p (S "LEFTARROW") then some 216
  else if eqIC p (S "UP") ∨ eqIC p (S "UPARROW") then some 218
  else if eqIC p (S "DOWN") ∨ eqIC p (S "DOWNARROW") then some 217
  else if eqIC p (S "TAB") then some 179
  else if p = S "SPACE" then some 44
  else namedKey p


/-! ### Lemmas about the byte-string operations -/

theorem lowerB_lowerB (b : Nat) : lowerB (lowerB b) = lowerB b := by
  unfold lowerB; split_ifs <;> omega

theorem eqIC_mapLower (a b : List Nat) : eqIC (a.map lowerB) b = eqIC a b := by
  unfold eqIC
  rw [List.map_map]
  have h : lowerB ∘ lowerB = lowerB := funext lowerB_lowerB
  rw [h]

theorem isSp_lowerB (b : Nat) : isSp (lowerB b) = isSp b := by
  unfold lowerB isSp; split_ifs with h
  · have h32 : (b + 32 == 32) = false := by simp; omega
    have hb32 : (b == 32) = false := by simp; omega
    rw [h32, hb32]
    simp only [Bool.false_or]
    have : decide (b + 32 ≤ 13) = false := by simp
    have hb : decide (b ≤ 13) = false := by simp; omega
    rw [this, hb, Bool.and_false, Bool.and_false]
  · rfl

theorem lowerB_eq_58 (b : Nat) : lowerB b = 58 ↔ b = 58 := by
  unfold lowerB; split_ifs <;> omega

theorem indexOfChar_none_iff (c : Nat) (l : List Nat) :
    indexOfChar c l = none ↔ c ∉ l := by
  induction l with
  | nil => simp [indexOfChar]
  | cons b l ih =>
    by_cases h : b = c
    · subst h; simp [indexOfChar]
    · rw [indexOfChar, if_neg h, Option.map_eq_none', ih, List.mem_cons]
      constructor
      · intro hc hm
        rcases hm with he | hm
        · exact h he.symm
        · exact hc hm
      · intro hc hm; exact hc (Or.inr hm)

theorem indexOfChar_append (c : Nat) (x p : List Nat) (h : indexOfChar c x = none) :
    indexOfChar c (x ++ c :: p) = some x.length := by
  induction x with
  | nil => simp [indexOfChar]
  | cons b x ih =>
    by_cases hbc : b = c
    · subst hbc; rw [indexOfChar, if_pos rfl] at h; exact absurd h (by simp)
    · rw [indexOfChar, if_neg hbc, Option.map_eq_none'] at h
      rw [List.cons_append, indexOfChar, if_neg hbc, ih h]
      rfl

theorem take_append_self (x r : List Nat) : (x ++ r).take x.length = x := by
  induction x with
  | nil => rfl
  | cons b x ih => simp [ih]

theorem drop_append_cons (x : List Nat) (c : Nat) (p : List Nat) :
    (x ++ c :: p).drop (x.length + 1) = p := by
  induction x with
  | nil => rfl
  | cons b x ih => simpa using ih

theorem parseDucky_split (x p : List Nat) (h : indexOfChar 32 x = none) :
    parseDucky (x ++ 32 :: p) = (trimB x, trimB p) := by
  unfold parseDucky
  rw [indexOfChar_append 32 x p h]
  dsimp only
  rw [take_append_self, drop_append_cons]

theorem parseCustom_split (x p : List Nat) (h : indexOfChar 58 x = none) :
    parseCustom (x ++ 58 :: p) = (trimB x, trimB p) := by
  unfold parseCustom
  rw [indexOfChar_append 58 x p h]
  dsimp only
  rw [take_append_self, drop_append_cons]

theorem dropWhile_map_lowerB (l : List Nat) :
    (l.map lowerB).dropWhile isSp = (l.dropWhile isSp).map lowerB := by
  induction l with
  | nil => rfl
  | cons b l ih =>
    simp only [List.map_cons, List.dropWhile_cons, isSp_lowerB]
    by_cases h : isSp b = true
    · simp [h, ih]
    · simp [h]

theorem trimB_map_lowerB (l : List Nat) :
    trimB (l.map lowerB) = (trimB l).map lowerB := by
  unfold trimB
  rw [dropWhile_map_lowerB, ← List.map_reverse, dropWhile_map_lowerB, ← List.map_reverse]

theorem indexOfChar_58_map_lowerB (x : List Nat) (h : indexOfChar 58 x = none) :
    indexOfChar 58 (x.map lowerB) = none := by
  rw [indexOfChar_none_iff] at h ⊢
  intro hc
  obtain ⟨b, hb, he⟩ := List.mem_map.mp hc
  exact h (((lowerB_eq_58 b).mp he) ▸ hb)

theorem head?_dropWhile_isSp (l : List Nat) :
    ∀ a, (l.dropWhile isSp).head? = some a → isSp a = false := by
  induction l with
  | nil => intro a h; simp [List.dropWhile] at h
  | cons b l ih =>
    intro a h
    by_cases hb : isSp b = true
    · rw [List.dropWhile_cons_of_pos hb] at h; exact ih a h
    · rw [List.dropWhile_cons_of_neg hb] at h
      simp at h
      rw [← h]; simpa using hb

theorem dropWhile_eq_self_of_head (l : List Nat)
    (h : ∀ a, l.head? = some a → isSp a = false) : l.dropWhile isSp = l := by
  cases l with
  | nil => rfl
  | cons b l =>
    have hb : isSp b = false := h b rfl
    rw [List.dropWhile_cons_of_neg (by simp [hb])]

theorem getLast?_of_suffix {l₁ l₂ : List Nat} (h : l₁ <:+ l₂) (hne : l₁ ≠ []) :
    l₁.getLast? = l₂.getLast? := by
  obtain ⟨pre, rfl⟩ := h
  rw [List.getLast?_append_of_ne_nil pre hne]

theorem trimB_head (l : List Nat) :
    ∀ a, (trimB l).head? = some a → isSp a = false := by
  intro a h
  unfold trimB at h
  rw [List.head?_reverse] at h
  set r := ((l.dropWhile isSp).reverse.dropWhile isSp) with hr
  have hrne : r ≠ [] := by
    intro he; rw [he] at h; simp at h
  have hsuf : r <:+ (l.dropWhile isSp).reverse := List.dropWhile_suffix isSp
  rw [getLast?_of_suffix hsuf hrne] at h
  rw [List.getLast?_reverse] at h
  exact head?_dropWhile_isSp l a h

theorem trimB_getLast (l : List Nat) :
    ∀ a, (trimB l).getLast? = some a → isSp a = false := by
  intro a h
  unfold trimB at h
  rw [List.getLast?_reverse] at h
  exact head?_dropWhile_isSp _ a h

theorem trimB_eq_self (l : List Nat)
    (h1 : ∀ a, l.head? = some a → isSp a = false)
    (h2 : ∀ a, l.getLast? = some a → isSp a = false) : trimB l = l := by
  unfold trimB
  rw [dropWhile_eq_self_of_head l h1]
  rw [dropWhile_eq_self_of_head _ (by simpa [List.head?_reverse] using h2)]
  exact List.reverse_reverse l

theorem trimB_idem (l : List Nat) : trimB (trimB l) = trimB l :=
  trimB_eq_self _ (trimB_head l) (trimB_getLast l)

theorem head_not_sp_of_trim_fix {p : List Nat} (h : trimB p = p) :
    ∀ a, p.head? = some a → isSp a = false := by
  intro a ha; exact trimB_head p a (by rwa [h])

theorem getLast_not_sp_of_trim_fix {p : List Nat} (h : trimB p = p) :
    ∀ a, p.getLast? = some a → isSp a = false := by
  intro a ha; exact trimB_getLast p a (by rwa [h])

theorem keyEvents_append (a b : List Ev) :
    keyEvents (a ++ b) = keyEvents a ++ keyEvents b := by
  simp [keyEvents, List.filter_append]

/-- An unknown command token falls through the whole dispatch chain:
only the `'+'`-combination fallback (or nothing) runs, and the
interpreter state is unchanged. -/
theorem duckyDispatch_unknown (cfg : Config) (st : DuckyState) (line cmd params : List Nat)
    (h : ¬ duckyKnown cmd) :
    duckyDispatch cfg st line cmd params =
      (st, if (indexOfChar 43 line).isSome then comboBranch line else []) := by
  have hne : ∀ n ∈ duckyCommandNames, cmd ≠ n := fun n hn he => h (he ▸ hn)
  unfold duckyDispatch
  rw [if_neg (not_or_intro (hne _ (by decide)) (hne _ (by decide)))]
  rw [if_neg (hne _ (by decide))]
  rw [if_neg (hne _ (by decide))]
  rw [if_neg (hne _ (by decide))]
  rw [if_neg (hne _ (by decide))]
  rw [if_neg (not_or_intro (hne _ (by decide)) (hne _ (by decide)))]
  rw [if_neg (not_or_intro (hne _ (by decide)) (hne _ (by decide)))]
  rw [if_neg (hne _ (by decide))]
  rw [if_neg (hne _ (by decide))]
  rw [if_neg (not_or_intro (hne _ (by decide)) (hne _ (by decide)))]
  rw [if_neg (hne _ (by decide))]
  rw [if_neg (hne _ (by decide))]
  rw [if_neg (hne _ (by decide))]
  rw [if_neg (hne _ (by decide))]
  rw [if_neg (hne _ (by decide))]
  rw [if_neg (hne _ (by decide))]
  rw [if_neg (hne _ (by decide))]
  rw [if_neg (not_or_intro (hne _ (by decide)) (hne _ (by decide)))]
  rw [if_neg (hne _ (by decide))]
  rw [if_neg (hne _ (by decide))]
  rw [if_neg (hne _ (by decide))]
  rw [if_neg (hne _ (by decide))]
  rw [if_neg (hne _ (by decide))]
  rw [if_neg (hne _ (by decide))]
  rw [if_neg (hne _ (by decide))]
  rw [if_neg (hne _ (by decide))]
  rw [if_neg (hne _ (by decide))]
  rw [if_neg (hne _ (by decide))]
  rw [if_neg (hne _ (by decide))]
  rw [if_neg (hne _ (by decide))]
  rw [if_neg (hne _ (by decide))]
  rw [if_neg (hne _ (by decide))]
  rw [if_neg (hne _ (by decide))]
  rw [if_neg (hne _ (by decide))]
  rw [if_neg (hne _ (by decide))]
  rw [if_neg (not_or_intro (hne _ (by decide)) (hne _ (by decide)))]
  rw [if_neg (not_or_intro (hne _ (by decide)) (hne _ (by decide)))]
  rw [if_neg (not_or_intro (hne _ (by decide)) (hne _ (by decide)))]
  rw [if_neg (not_or_intro (hne _ (by decide)) (hne _ (by decide)))]
  rw [if_neg (not_or_intro (hne _ (by decide)) (hne _ (by decide)))]
  by_cases hc : (indexOfChar 43 line).isSome = true <;> simp [hc]

/-- An unknown command is a complete no-op in the Direct-ASCII
processor (it has no `'+'` fallback at all). -/
theorem duckyDispatchDirect_unknown (cfg : Config) (st : DuckyState) (cmd params : List Nat)
    (h : ¬ duckyDirectKnown cmd) :
    duckyDispatchDirect cfg st cmd params = (st, []) := by
  have hne : ∀ n ∈ duckyDirectCommandNames, cmd ≠ n := fun n hn he => h (he ▸ hn)
  unfold duckyDispatchDirect
  rw [if_neg (not_or_intro (hne _ (by decide)) (hne _ (by decide)))]
  rw [if_neg (hne _ (by decide))]
  rw [if_neg (hne _ (by decide))]
  rw [if_neg (hne _ (by decide))]
  rw [if_neg (hne _ (by decide))]
  rw [if_neg (not_or_intro (hne _ (by decide)) (hne _ (by decide)))]
  rw [if_neg (not_or_intro (hne _ (by decide)) (hne _ (by decide)))]
  rw [if_neg (hne _ (by decide))]
  rw [if_neg (hne _ (by decide))]
  rw [if_neg (hne _ (by decide))]
  rw [if_neg (hne _ (by decide))]

theorem splitOnB_ne_nil (c : Nat) (l : List Nat) : splitOnB c l ≠ [] := by
  cases l with
  | nil => simp [splitOnB]
  | cons b l =>
    unfold splitOnB
    split_ifs
    · simp
    · rcases h : splitOnB c l with _ | ⟨t, ts⟩ <;> simp [h]

theorem splitOnB_not_mem (c : Nat) (l : List Nat) (h : c ∉ l) :
    splitOnB c l = [l] := by
  induction l with
  | nil => rfl
  | cons b l ih =>
    have hbc : b ≠ c := fun he => h (he ▸ List.mem_cons_self b l)
    have hl : c ∉ l := fun hm => h (List.mem_cons_of_mem b hm)
    unfold splitOnB
    rw [if_neg hbc, ih hl]

theorem splitOnB_cons_ne (c b : Nat) (l : List Nat) (hbc : b ≠ c) :
    splitOnB c (b :: l) =
      (match splitOnB c l with
        | t :: ts => (b :: t) :: ts
        | [] => [[b]]) := by
  conv_lhs => rw [splitOnB.eq_def]
  dsimp only
  rw [if_neg hbc]

theorem splitOnB_append (c : Nat) (x r : List Nat) (h : c ∉ x) :
    splitOnB c (x ++ c :: r) = x :: splitOnB c r := by
  induction x with
  | nil => simp [splitOnB]
  | cons b x ih =>
    have hbc : b ≠ c := fun he => h (he ▸ List.mem_cons_self b x)
    have hx : c ∉ x := fun hm => h (List.mem_cons_of_mem b hm)
    rw [List.cons_append, splitOnB_cons_ne c b _ hbc, ih hx]

theorem indexOfChar_some_split (c : Nat) (l : List Nat) (i : Nat)
    (h : indexOfChar c l = some i) :
    l.take i ++ c :: l.drop (i + 1) = l ∧ c ∉ l.take i := by
  induction l generalizing i with
  | nil => simp [indexOfChar] at h
  | cons b l ih =>
    by_cases hbc : b = c
    · subst hbc
      rw [indexOfChar, if_pos rfl] at h
      obtain rfl : (0 : Nat) = i := by simpa using h
      simp
    · rw [indexOfChar, if_neg hbc] at h
      rcases hj : indexOfChar c l with _ | j
      · rw [hj] at h; simp at h
      · rw [hj] at h
        obtain rfl : j + 1 = i := by simpa using h
        obtain ⟨h1, h2⟩ := ih j hj
        constructor
        · simpa using h1
        · intro hm
          rcases List.mem_cons.mp (by simpa using hm) with he | hm'
          · exact hbc he.symm
          · exact h2 hm'

theorem dropTrailingNil_cons (t : List Nat) (ts : List (List Nat)) (h : ts ≠ []) :
    dropTrailingNil (t :: ts) = t :: dropTrailingNil ts := by
  rcases ts with _ | ⟨a, ts'⟩
  · exact absurd rfl h
  · unfold dropTrailingNil
    rw [List.getLast?_cons_cons, List.dropLast_cons₂]
    split_ifs <;> rfl

/-- The C++ combination tokenizer equals "split on `'+'`, drop a
trailing empty segment, keep the first `n` tokens". -/
theorem comboGo_eq (n : Nat) (s : List Nat) :
    comboGo n s = (dropTrailingNil (splitOnB 43 s)).take n := by
  induction n generalizing s with
  | zero => rfl
  | succ n ih =>
    unfold comboGo
    rcases hix : indexOfChar 43 s with _ | i
    · have hnot : 43 ∉ s := (indexOfChar_none_iff 43 s).mp hix
      rw [splitOnB_not_mem 43 s hnot]
      by_cases hs : s = []
      · subst hs; rfl
      · rw [if_neg hs]
        unfold dropTrailingNil
        have : (([s] : List (List Nat)).getLast? = some ([] : List Nat)) ↔ s = [] := by
          simp
        rw [if_neg (fun hh => hs (this.mp hh))]
        simp
    · obtain ⟨heq, hnot⟩ := indexOfChar_some_split 43 s i hix
      have hsplit : splitOnB 43 s = s.take i :: splitOnB 43 (s.drop (i + 1)) := by
        conv_lhs => rw [← heq]
        exact splitOnB_append 43 _ _ hnot
      rw [hsplit, dropTrailingNil_cons _ _ (splitOnB_ne_nil 43 _), List.take_succ_cons]
      dsimp only
      rw [ih]

/-- `comboTokens` keeps at most the first five `'+'`-separated tokens;
tokens beyond the fifth are silently dropped. -/
theorem comboTokens_take_five (line : List Nat) :
    comboTokens line = (dropTrailingNil (splitOnB 43 line)).take 5 :=
  comboGo_eq 5 line

/-! ### Claim theorems -/

set_option maxRecDepth 8192 in
/-- C5: for every byte in the documented keycode set (lowercase a-z,
uppercase A-Z with shift, digits 1-9 and 0, the listed punctuation and
space) the character-to-keycode mapping is defined and returns the
documented (keycode, shiftRequired) pair, and for every byte outside
that set — including every non-ASCII byte — the mapping is undefined;
layout-independent typing emits nothing for an unmapped character and
continues with the next character (only the inter-character pause
remains), raising no error. -/
theorem C5_keycode_map :
    (∀ c, c < 256 → mapChar c = docPair c ∧ ((mapChar c).isSome ↔ c ∈ docSet))
    ∧ (∀ c rest, mapChar c = none →
        typeLayoutIndependentChar c = []
        ∧ typeLayoutIndependent (c :: rest) = .delayEv 20 :: typeLayoutIndependent rest) := by
  constructor
  · decide
  · intro c rest h
    have h1 : typeLayoutIndependentChar c = [] := by
      unfold typeLayoutIndependentChar; rw [h]
    refine ⟨h1, ?_⟩
    show evConcat _ (c :: rest) = _
    rw [evConcat, h1]
    rfl

/-- Witness for C5 at the mapped byte 100 (`d`) and the unmapped
non-ASCII byte 200. -/
theorem C5_keycode_map_witness :
    ((100 : Nat) < 256 ∧ mapChar 100 = docPair 100 ∧ ((mapChar 100).isSome ↔ 100 ∈ docSet))
    ∧ (mapChar 200 = none ∧ typeLayoutIndependentChar 200 = []
        ∧ typeLayoutIndependent (200 :: [97]) = .delayEv 20 :: typeLayoutIndependent [97]) :=
  ⟨⟨by decide, C5_keycode_map.1 100 (by decide)⟩,
   ⟨by decide, C5_keycode_map.2 200 [97] (by decide)⟩⟩

theorem processDuckyLine_repeat01 (cfg : Config) (st : DuckyState) :
    processDuckyLine cfg st (S "REPEAT 0") = processDuckyLine cfg st (S "REPEAT 1") := rfl

theorem processDuckyLineDirect_repeat01 (cfg : Config) (st : DuckyState) :
    processDuckyLineDirect cfg st (S "REPEAT 0") = processDuckyLineDirect cfg st (S "REPEAT 1") := rfl

theorem processInstructionLine_repeat01 (cfg : Config) (st : DuckyState) :
    processInstructionLine cfg st (S "REPEAT 0") = processInstructionLine cfg st (S "REPEAT 1") := rfl

theorem runStdGo_repeat01 (cfg : Config) : ∀ (pre : List (List Nat)) post st sum evs,
    runStdGo cfg st sum evs (pre ++ S "REPEAT 0" :: post)
      = runStdGo cfg st sum evs (pre ++ S "REPEAT 1" :: post) := by
  intro pre
  induction pre with
  | nil =>
    intro post st sum evs
    simp only [List.nil_append, runStdGo]
    have h0 : trimB (S "REPEAT 0") = S "REPEAT 0" := by decide
    have h1 : trimB (S "REPEAT 1") = S "REPEAT 1" := by decide
    rw [h0, h1]
    rw [if_pos (by decide : S "REPEAT 0" ≠ [] ∧ startsWithB (S "//") (S "REPEAT 0") = false
          ∧ startsWithB (S "#") (S "REPEAT 0") = false)]
    rw [if_pos (by decide : S "REPEAT 1" ≠ [] ∧ startsWithB (S "//") (S "REPEAT 1") = false
          ∧ startsWithB (S "#") (S "REPEAT 1") = false)]
    by_cases hm1 : cfg.scriptMode = 1
    · rw [if_pos ⟨hm1, by decide⟩, if_pos ⟨hm1, by decide⟩,
        processDuckyLine_repeat01]
    · rw [if_neg (show ¬(cfg.scriptMode = 1 ∧ startsWithB (S "REM") (S "REPEAT 0") = false)
            from fun hc => hm1 hc.1)]
      rw [if_neg (show ¬(cfg.scriptMode = 1 ∧ startsWithB (S "REM") (S "REPEAT 1") = false)
            from fun hc => hm1 hc.1)]
      by_cases hm0 : cfg.scriptMode = 0
      · rw [if_pos hm0, if_pos hm0, processInstructionLine_repeat01]
      · rw [if_neg hm0, if_neg hm0]
        rw [if_neg (show ¬(cfg.scriptMode = 1 ∧ startsWithB (S "REM") (S "REPEAT 0") = true)
              from fun hc => hm1 hc.1)]
        rw [if_neg (show ¬(cfg.scriptMode = 1 ∧ startsWithB (S "REM") (S "REPEAT 1") = true)
              from fun hc => hm1 hc.1)]
  | cons a pre ih =>
    intro post st sum evs
    simp only [List.cons_append, runStdGo]
    split_ifs <;> apply ih

theorem execDirectGo_repeat01 (cfg : Config) : ∀ (pre : List (List Nat)) post st evs,
    execDirectGo cfg st evs (pre ++ S "REPEAT 0" :: post)
      = execDirectGo cfg st evs (pre ++ S "REPEAT 1" :: post) := by
  intro pre
  induction pre with
  | nil =>
    intro post st evs
    simp only [List.nil_append, execDirectGo]
    have h0 : trimB (S "REPEAT 0") = S "REPEAT 0" := by decide
    have h1 : trimB (S "REPEAT 1") = S "REPEAT 1" := by decide
    rw [h0, h1]
    rw [if_pos (by decide : S "REPEAT 0" ≠ [] ∧ startsWithB (S "//") (S "REPEAT 0") = false
          ∧ startsWithB (S "#") (S "REPEAT 0") = false)]
    rw [if_pos (by decide : S "REPEAT 1" ≠ [] ∧ startsWithB (S "//") (S "REPEAT 1") = false
          ∧ startsWithB (S "#") (S "REPEAT 1") = false)]
    rw [if_pos (by decide : startsWithB (S "REM") (S "REPEAT 0") = false),
      if_pos (by decide : startsWithB (S "REM") (S "REPEAT 1") = false),
      processDuckyLineDirect_repeat01]
  | cons a pre ih =>
    intro post st evs
    simp only [List.cons_append, execDirectGo]
    split_ifs <;> apply ih

theorem driverPassAsBuilt_repeat01 (cfg : Config) (st : DuckyState) (pre post : List (List Nat)) :
    driverPassAsBuilt cfg st (pre ++ S "REPEAT 0" :: post)
      = driverPassAsBuilt cfg st (pre ++ S "REPEAT 1" :: post) := by
  unfold driverPassAsBuilt executeScriptDirectASCII
  rw [execDirectGo_repeat01]

theorem driverPassStd_repeat01 (cfg : Config) (st : DuckyState) (pre post : List (List Nat)) :
    driverPassStd cfg st (pre ++ S "REPEAT 0" :: post)
      = driverPassStd cfg st (pre ++ S "REPEAT 1" :: post) := by
  unfold driverPassStd runStandardLoop
  rw [runStdGo_repeat01]

theorem driverLoopAsBuilt_repeat01 (cfg : Config) : ∀ fuel st pre post,
    driverLoopAsBuilt cfg fuel st (pre ++ S "REPEAT 0" :: post)
      = driverLoopAsBuilt cfg fuel st (pre ++ S "REPEAT 1" :: post) := by
  intro fuel
  induction fuel with
  | zero => intro st pre post; rfl
  | succ fuel ih =>
    intro st pre post
    simp only [driverLoopAsBuilt]
    rw [driverPassAsBuilt_repeat01]
    split_ifs
    · rw [ih]
    · rfl

theorem driverLoopStd_repeat01 (cfg : Config) : ∀ fuel st pre post,
    driverLoopStd cfg fuel st (pre ++ S "REPEAT 0" :: post)
      = driverLoopStd cfg fuel st (pre ++ S "REPEAT 1" :: post) := by
  intro fuel
  induction fuel with
  | zero => intro st pre post; rfl
  | succ fuel ih =>
    intro st pre post
    simp only [driverLoopStd]
    rw [driverPassStd_repeat01]
    split_ifs
    · rw [ih]
    · rfl

/-- C4: a `REPEAT 0` command behaves exactly like `REPEAT 1`: the
handler replaces a parameter of 0 by 1 before the repeat-loop condition
is ever evaluated (`repeatScriptCount` becomes 1 and
`repeatScriptMode` true), the two lines produce identical state and
events in both Ducky processors, and any script containing `REPEAT 0`
runs exactly like the same script with `REPEAT 1` — through the
standard counting loop, the forced Direct-ASCII driver loop, and the
standard driver loop, for every fuel bound (hence the same number of
total script passes). -/
theorem C4_repeat_zero_default :
    (∀ cfg st, processDuckyLine cfg st (S "REPEAT 0") = processDuckyLine cfg st (S "REPEAT 1"))
    ∧ (∀ cfg st, (processDuckyLine cfg st (S "REPEAT 0")).1.repeatScriptCount = 1
        ∧ (processDuckyLine cfg st (S "REPEAT 0")).1.repeatScriptMode = true)
    ∧ (∀ cfg st, processDuckyLineDirect cfg st (S "REPEAT 0")
        = processDuckyLineDirect cfg st (S "REPEAT 1"))
    ∧ (∀ cfg st sum evs pre post,
        runStdGo cfg st sum evs (pre ++ S "REPEAT 0" :: post)
          = runStdGo cfg st sum evs (pre ++ S "REPEAT 1" :: post))
    ∧ (∀ cfg fuel st pre post,
        driverLoopStd cfg fuel st (pre ++ S "REPEAT 0" :: post)
          = driverLoopStd cfg fuel st (pre ++ S "REPEAT 1" :: post))
    ∧ (∀ cfg fuel st pre post,
        driverLoopAsBuilt cfg fuel st (pre ++ S "REPEAT 0" :: post)
          = driverLoopAsBuilt cfg fuel st (pre ++ S "REPEAT 1" :: post)) :=
  ⟨processDuckyLine_repeat01,
   fun _ _ => ⟨rfl, rfl⟩,
   processDuckyLineDirect_repeat01,
   fun cfg st sum evs pre post => runStdGo_repeat01 cfg pre post st sum evs,
   fun cfg fuel st pre post => driverLoopStd_repeat01 cfg fuel st pre post,
   fun cfg fuel st pre post => driverLoopAsBuilt_repeat01 cfg fuel st pre post⟩

theorem getLast?_append_cons (x : List Nat) (b : Nat) (p : List Nat) :
    (x ++ b :: p).getLast? = (b :: p).getLast? :=
  List.getLast?_append_of_ne_nil x (by simp)

theorem getLast?_cons_ne_nil (b : Nat) (p : List Nat) (h : p ≠ []) :
    (b :: p).getLast? = p.getLast? := by
  cases p with
  | nil => exact absurd rfl h
  | cons a p => exact List.getLast?_cons_cons

theorem trimB_cmd_param (x : List Nat) (p : List Nat)
    (hxne : x ≠ []) (hxtrim : trimB x = x) (hptrim : trimB p = p) (hpne : p ≠ []) :
    trimB (x ++ 32 :: p) = x ++ 32 :: p := by
  apply trimB_eq_self
  · intro a ha
    rcases x with _ | ⟨b, x'⟩
    · exact absurd rfl hxne
    · simp only [List.cons_append, List.head?_cons, Option.some.injEq] at ha
      exact head_not_sp_of_trim_fix hxtrim a (by simp [← ha])
  · intro a ha
    rw [getLast?_append_cons, getLast?_cons_ne_nil 32 p hpne] at ha
    exact getLast_not_sp_of_trim_fix hptrim a ha

/-- A line of the form `CMD params` (command without spaces, both parts
trim-fixed, not `REM`-prefixed) runs through `processDuckyLine` as: the
activity blink, the dispatch of `CMD` with the given parameters, and
the trailing default-delay sleep. -/
theorem processDuckyLine_split (cfg : Config) (st : DuckyState) (x p : List Nat)
    (hx32 : indexOfChar 32 x = none)
    (hxne : x ≠ []) (hxtrim : trimB x = x)
    (hptrim : trimB p = p) (hpne : p ≠ [])
    (hrem : startsWithB (S "REM") (x ++ 32 :: p) = false) :
    processDuckyLine cfg st (x ++ 32 :: p)
      = ((duckyDispatch cfg st (x ++ 32 :: p) x p).1,
        .delayEv 25 :: ((duckyDispatch cfg st (x ++ 32 :: p) x p).2
          ++ [.delayEv (duckyDispatch cfg st (x ++ 32 :: p) x p).1.defaultDelay])) := by
  simp only [processDuckyLine]
  rw [trimB_cmd_param x p hxne hxtrim hptrim hpne, hrem, parseDucky_split x p hx32,
    hxtrim, hptrim]
  simp

/-- The Direct-ASCII analogue of `processDuckyLine_split`. -/
theorem processDuckyLineDirect_split (cfg : Config) (st : DuckyState) (x p : List Nat)
    (hx32 : indexOfChar 32 x = none)
    (hxne : x ≠ []) (hxtrim : trimB x = x)
    (hptrim : trimB p = p) (hpne : p ≠ [])
    (hrem : startsWithB (S "REM") (x ++ 32 :: p) = false) :
    processDuckyLineDirect cfg st (x ++ 32 :: p)
      = ((duckyDispatchDirect cfg st x p).1,
        .delayEv 25 :: ((duckyDispatchDirect cfg st x p).2
          ++ [.delayEv (duckyDispatchDirect cfg st x p).1.defaultDelay])) := by
  simp only [processDuckyLineDirect]
  rw [trimB_cmd_param x p hxne hxtrim hptrim hpne, hrem, parseDucky_split x p hx32,
    hxtrim, hptrim]
  simp

theorem duckyDispatch_SHIFT (cfg : Config) (st : DuckyState) (line params : List Nat) :
    duckyDispatch cfg st line (S "SHIFT") params = (st, duckySHIFT cfg params) := rfl

theorem duckyDispatchDirect_SHIFT (cfg : Config) (st : DuckyState) (params : List Nat) :
    duckyDispatchDirect cfg st (S "SHIFT") params = (st, duckySHIFTDirect params) := rfl

theorem trimB_single (c : Nat) (h : isSp c = false) : trimB [c] = [c] :=
  trimB_eq_self [c]
    (fun a ha => by simp at ha; rwa [← ha])
    (fun a ha => by simp at ha; rwa [← ha])

/-- C6: a Ducky `SHIFT` command whose parameter is a single lowercase
letter emits exactly one literal-write event carrying the uppercase of
the letter (its ASCII value minus 32) — no modifier press, no
primary-key press, no release-all — in the standard processor (where a
50 ms pause follows the write) and likewise in the Direct-ASCII
processor; the interpreter state is unchanged. -/
theorem C6_shift_lowercase (cfg : Config) (st : DuckyState) (c : Nat)
    (h1 : 97 ≤ c) (h2 : c ≤ 122) :
    processDuckyLine cfg st (S "SHIFT " ++ [c])
        = (st, [.delayEv 25, .write (c - 32), .delayEv 50, .delayEv st.defaultDelay])
    ∧ keyEvents (processDuckyLine cfg st (S "SHIFT " ++ [c])).2 = [.write (c - 32)]
    ∧ processDuckyLineDirect cfg st (S "SHIFT " ++ [c])
        = (st, [.delayEv 25, .write (c - 32), .delayEv st.defaultDelay])
    ∧ keyEvents (processDuckyLineDirect cfg st (S "SHIFT " ++ [c])).2 = [.write (c - 32)] := by
  have hsp : isSp c = false := by simp [isSp]; omega
  have he : S "SHIFT " ++ [c] = S "SHIFT" ++ 32 :: [c] := rfl
  have hptrim : trimB [c] = [c] := trimB_single c hsp
  have hrem : startsWithB (S "REM") (S "SHIFT" ++ 32 :: [c]) = false := rfl
  have hstd := processDuckyLine_split cfg st (S "SHIFT") [c]
    (by decide) (by decide) (by decide) hptrim (by simp) hrem
  have hdir := processDuckyLineDirect_split cfg st (S "SHIFT") [c]
    (by decide) (by decide) (by decide) hptrim (by simp) hrem
  have hs : duckySHIFT cfg [c] = [.write (c - 32), .delayEv 50] := by
    unfold duckySHIFT
    rw [if_pos (by simp : (0 : Nat) < [c].length), if_pos (by simp : ([c] : List Nat).length = 1)]
    show (if 97 ≤ c ∧ c ≤ 122 then _ else _) = _
    rw [if_pos ⟨h1, h2⟩]
    rfl
  have hsd : duckySHIFTDirect [c] = [.write (c - 32)] := by
    unfold duckySHIFTDirect
    rw [if_pos (by simp : (0 : Nat) < [c].length), if_pos (by simp : ([c] : List Nat).length = 1)]
    show (if 97 ≤ c ∧ c ≤ 122 then _ else _) = _
    rw [if_pos ⟨h1, h2⟩]
    rfl
  rw [he, hstd, hdir, duckyDispatch_SHIFT, duckyDispatchDirect_SHIFT]
  refine ⟨by rw [hs]; rfl, ?_, by rw [hsd]; rfl, ?_⟩
  · show keyEvents (.delayEv 25 :: ((st, duckySHIFT cfg [c]).2
        ++ [.delayEv (st, duckySHIFT cfg [c]).1.defaultDelay])) = _
    rw [show (st, duckySHIFT cfg [c]).2 = duckySHIFT cfg [c] from rfl, hs]
    simp [keyEvents, isKeyEv]
  · show keyEvents (.delayEv 25 :: ((st, duckySHIFTDirect [c]).2
        ++ [.delayEv (st, duckySHIFTDirect [c]).1.defaultDelay])) = _
    rw [show (st, duckySHIFTDirect [c]).2 = duckySHIFTDirect [c] from rfl, hsd]
    simp [keyEvents, isKeyEv]

/-- Witness for C6 at the letter `a` (byte 97). -/
theorem C6_shift_lowercase_witness :
    97 ≤ 97 ∧ 97 ≤ 122
    ∧ (processDuckyLine cfg0 st0 (S "SHIFT " ++ [97])
        = (st0, [.delayEv 25, .write 65, .delayEv 50, .delayEv st0.defaultDelay])
      ∧ keyEvents (processDuckyLine cfg0 st0 (S "SHIFT " ++ [97])).2 = [.write 65]
      ∧ processDuckyLineDirect cfg0 st0 (S "SHIFT " ++ [97])
        = (st0, [.delayEv 25, .write 65, .delayEv st0.defaultDelay])
      ∧ keyEvents (processDuckyLineDirect cfg0 st0 (S "SHIFT " ++ [97])).2 = [.write 65]) :=
  ⟨by decide, by decide, C6_shift_lowercase cfg0 st0 97 (by decide) (by decide)⟩

/-- C7: the Ducky line `STRING Hi!` in layout-independent mode emits,
in order: Shift-down, press of keycode 11 (`h`), release-all, settle
(for `H`); press of keycode 12 (`i`), release-all, settle; Shift-down,
press of keycode 30 (the `1` key, since `!` is Shift+`1`), release-all,
settle — and no other keyboard event.  The full trace also records the
dwell/hold/settle sleeps and the trailing default-delay sleep. -/
theorem C7_string_hi (sm td : Nat) (st : DuckyState) :
    (processDuckyLine ⟨sm, td, true⟩ st (S "STRING Hi!")).2
      = [.delayEv 25,
         .press 129, .delayEv 250, .press 11, .delayEv 250, .releaseAll, .delayEv 50,
         .delayEv 20,
         .press 12, .delayEv 250, .releaseAll, .delayEv 50, .delayEv 20,
         .press 129, .delayEv 250, .press 30, .delayEv 250, .releaseAll, .delayEv 50,
         .delayEv 20,
         .delayEv st.defaultDelay]
    ∧ (processDuckyLine ⟨sm, td, true⟩ st (S "STRING Hi!")).1 = st
    ∧ keyEvents (processDuckyLine ⟨sm, td, true⟩ st (S "STRING Hi!")).2
      = [.press 129, .press 11, .releaseAll,
         .press 12, .releaseAll,
         .press 129, .press 30, .releaseAll] :=
  ⟨rfl, rfl, rfl⟩

theorem startsWithB_REM_shape (l : List Nat) (h : startsWithB (S "REM") l = true) :
    ∃ l', l = 82 :: 69 :: 77 :: l' := by
  rcases l with _ | ⟨a, l⟩
  · exact absurd h (by decide)
  rcases l with _ | ⟨b, l⟩
  · exact absurd h (by simp [S, startsWithB])
  rcases l with _ | ⟨d, l⟩
  · exact absurd h (by simp [S, startsWithB])
  have h' : (82 == a && (69 == b && (77 == d && true))) = true := h
  simp only [Bool.and_eq_true, beq_iff_eq] at h'
  obtain ⟨rfl, rfl, rfl, -⟩ := h'
  exact ⟨l, rfl⟩

/-- C10: the Ducky processors treat a line as a comment exactly when
its trimmed text begins with the three uppercase bytes `REM`: such a
line produces only the activity blink — the processor returns before
the post-command default-delay sleep — and leaves the state unchanged;
any non-`REM` line is dispatched and ends with the default-delay sleep;
a lowercase `rem hello` is dispatched as an unknown command (a no-op
that still sleeps); `REMOVE x` is skipped as a comment because only the
prefix is tested; and the Direct-ASCII line loop also skips
`REM`-prefixed lines at the driver level. -/
theorem C10_rem_comment_prefix :
    (∀ cfg st (line : List Nat), startsWithB (S "REM") (trimB line) = true →
        processDuckyLine cfg st line = (st, [.delayEv 25]))
    ∧ (∀ cfg st (line : List Nat), startsWithB (S "REM") (trimB line) = false →
        ∃ st2 evs, processDuckyLine cfg st line
          = (st2, .delayEv 25 :: (evs ++ [.delayEv st2.defaultDelay])))
    ∧ (∀ cfg st, processDuckyLine cfg st (S "rem hello")
        = (st, [.delayEv 25, .delayEv st.defaultDelay]))
    ∧ (∀ cfg st, processDuckyLine cfg st (S "REMOVE x") = (st, [.delayEv 25]))
    ∧ (∀ cfg st (line : List Nat), startsWithB (S "REM") (trimB line) = true →
        processDuckyLineDirect cfg st line = (st, [.delayEv 25]))
    ∧ (∀ cfg st evs (line : List Nat) rest, startsWithB (S "REM") (trimB line) = true →
        execDirectGo cfg st evs (line :: rest) = execDirectGo cfg st evs rest) := by
  refine ⟨?_, ?_, ?_, ?_, ?_, ?_⟩
  · intro cfg st line h
    simp [processDuckyLine, h]
  · intro cfg st line h
    simp only [processDuckyLine, h]
    exact ⟨(duckyDispatch cfg st (trimB line) (parseDucky (trimB line)).1
        (parseDucky (trimB line)).2).1,
      (duckyDispatch cfg st (trimB line) (parseDucky (trimB line)).1
        (parseDucky (trimB line)).2).2, by simp⟩
  · intro cfg st; rfl
  · intro cfg st; rfl
  · intro cfg st line h
    simp [processDuckyLineDirect, h]
  · intro cfg st evs line rest h
    obtain ⟨l', hl⟩ := startsWithB_REM_shape (trimB line) h
    have hr : startsWithB (S "REM") (82 :: 69 :: 77 :: l') = true := rfl
    simp only [execDirectGo, hl]
    rw [if_pos ⟨by simp, rfl, rfl⟩]
    rw [if_neg (fun hf : startsWithB (S "REM") (82 :: 69 :: 77 :: l') = false =>
      absurd (hr.symm.trans hf) (by decide))]

/-- Witness for C10 at the comment `REM test`, the non-comment
`DELAY 5`, and a Direct-ASCII driver step over `REMOVE x`. -/
theorem C10_rem_comment_prefix_witness :
    (startsWithB (S "REM") (trimB (S "REM test")) = true
      ∧ processDuckyLine cfg0 st0 (S "REM test") = (st0, [.delayEv 25]))
    ∧ (startsWithB (S "REM") (trimB (S "DELAY 5")) = false
      ∧ ∃ st2 evs, processDuckyLine cfg0 st0 (S "DELAY 5")
          = (st2, .delayEv 25 :: (evs ++ [.delayEv st2.defaultDelay])))
    ∧ (startsWithB (S "REM") (trimB (S "REMOVE x")) = true
      ∧ execDirectGo cfg0 st0 [] (S "REMOVE x" :: [S "TAB"])
          = execDirectGo cfg0 st0 [] [S "TAB"]) :=
  ⟨⟨by decide, C10_rem_comment_prefix.1 cfg0 st0 (S "REM test") (by decide)⟩,
   ⟨by decide, C10_rem_comment_prefix.2.1 cfg0 st0 (S "DELAY 5") (by decide)⟩,
   ⟨by decide, C10_rem_comment_prefix.2.2.2.2.2 cfg0 st0 [] (S "REMOVE x") [S "TAB"]
      (by decide)⟩⟩

theorem instrDispatch_mapLower (cfg : Config) (cmd params : List Nat) :
    instrDispatch cfg (cmd.map lowerB) params = instrDispatch cfg cmd params := by
  unfold instrDispatch
  simp only [eqIC_mapLower]

/-- C2 counterexample: the Ducky-dialect processor is not
case-insensitive on command names — the lowercase line `delay 100` is
dispatched as an unknown no-op (no sleep of 100 ms is emitted), while
`DELAY 100` reaches the DELAY handler, so the two lines do not dispatch
to the same handler. -/
theorem C2_counterexample :
    processDuckyLine cfg0 st0 (S "delay 100") ≠ processDuckyLine cfg0 st0 (S "DELAY 100")
    ∧ (processDuckyLine cfg0 st0 (S "delay 100")).2 = [.delayEv 25, .delayEv 0]
    ∧ (processDuckyLine cfg0 st0 (S "DELAY 100")).2
        = [.delayEv 25, .delayEv 100, .delayEv 0] := by
  exact ⟨by decide, by decide, by decide⟩

/-- C2 (amended): the custom colon-delimited processor matches command
names case-insensitively — lowering the case of the command segment
never changes the result — and both parsers hand the parameter string
through verbatim (original case and interior whitespace); the
Ducky-dialect processor, however, matches command names
case-sensitively (exact uppercase spellings): lowercase `delay 100` is
dispatched as an unknown no-op rather than to the DELAY handler. -/
theorem C2_amended_case_sensitivity :
    (∀ cfg st (cmd params : List Nat), indexOfChar 58 cmd = none →
        processInstructionLine cfg st (cmd.map lowerB ++ 58 :: params)
          = processInstructionLine cfg st (cmd ++ 58 :: params))
    ∧ (∀ cfg st, processDuckyLine cfg st (S "delay 100")
        = (st, [.delayEv 25, .delayEv st.defaultDelay]))
    ∧ (∀ (p : List Nat), trimB p = p →
        parseDucky (S "STRING" ++ 32 :: p) = (S "STRING", p))
    ∧ (∀ (p : List Nat), trimB p = p →
        parseCustom (S "TYPE" ++ 58 :: p) = (S "TYPE", p)) := by
  refine ⟨?_, ?_, ?_, ?_⟩
  · intro cfg st cmd params h
    have h2 : indexOfChar 58 (cmd.map lowerB) = none := indexOfChar_58_map_lowerB cmd h
    unfold processInstructionLine
    rw [parseCustom_split _ _ h2, parseCustom_split _ _ h]
    dsimp only
    rw [trimB_map_lowerB, instrDispatch_mapLower]
  · intro cfg st; rfl
  · intro p hp
    rw [parseDucky_split (S "STRING") p (by decide), hp]
    rfl
  · intro p hp
    rw [parseCustom_split (S "TYPE") p (by decide), hp]
    rfl

/-- Witness for C2 (amended): `delay:100` and `DELAY:100` coincide in
the custom dialect, and `STRING Hello World` keeps its parameter text
verbatim. -/
theorem C2_amended_case_sensitivity_witness :
    (indexOfChar 58 (S "DELAY") = none
      ∧ processInstructionLine cfg0 st0 ((S "DELAY").map lowerB ++ 58 :: S "100")
          = processInstructionLine cfg0 st0 (S "DELAY" ++ 58 :: S "100"))
    ∧ (trimB (S "Hello World") = S "Hello World"
      ∧ parseDucky (S "STRING" ++ 32 :: S "Hello World") = (S "STRING", S "Hello World")) :=
  ⟨⟨by decide, C2_amended_case_sensitivity.1 cfg0 st0 (S "DELAY") (S "100") (by decide)⟩,
   ⟨by decide, C2_amended_case_sensitivity.2.2.1 (S "Hello World") (by decide)⟩⟩

/-- C1 counterexample: on a zero-line script the as-built driver pass
(Direct-ASCII mode is forced on and the counters are overridden)
reports the hard-coded summary `lineCount = 1, executedCount = 1,
skippedCount = 0`, so `executedCount = 0` does not hold. -/
theorem C1_counterexample :
    (driverPassAsBuilt cfg0 st0 []).2.1 = ⟨1, 1, 0⟩
    ∧ (driverPassAsBuilt cfg0 st0 []).2.1.executedCount ≠ 0 :=
  ⟨by decide, by decide⟩

/-- C1 (amended): a zero-line script emits no keyboard event (no press,
release-all or literal write) under the as-built driver pass, but that
pass reports the hard-coded summary `lineCount = 1, executedCount = 1,
skippedCount = 0` because Direct-ASCII mode is forced on and the
counters are overridden; the standard counting loop — which the forced
mode bypasses — yields `executedCount = 0, skippedCount = 0` and no
events, as the claim expected. -/
theorem C1_amended_empty_script (cfg : Config) (st : DuckyState) :
    keyEvents (driverPassAsBuilt cfg st []).2.2 = []
    ∧ (driverPassAsBuilt cfg st []).2.1 = ⟨1, 1, 0⟩
    ∧ runStandardLoop cfg st [] = (st, ⟨0, 0, 0⟩, []) := by
  refine ⟨?_, rfl, rfl⟩
  unfold driverPassAsBuilt executeScriptDirectASCII execDirectGo
  by_cases h : st.repeatScriptMode ∧ 0 < st.currentRepeat
  · rw [if_pos h]; rfl
  · rw [if_neg h]; rfl

/-- An unknown Ducky command without `'+'` in the line is a complete
no-op: no keyboard event, state unchanged, only the activity blink and
the default-delay sleep. -/
theorem processDuckyLine_unknown (cfg : Config) (st : DuckyState) (line : List Nat)
    (h : ¬ duckyKnown (parseDucky (trimB line)).1)
    (hplus : indexOfChar 43 (trimB line) = none)
    (hrem : startsWithB (S "REM") (trimB line) = false) :
    processDuckyLine cfg st line = (st, [.delayEv 25, .delayEv st.defaultDelay]) := by
  simp only [processDuckyLine, hrem]
  rw [duckyDispatch_unknown cfg st (trimB line) _ _ h]
  rw [hplus]
  simp

/-- The Direct-ASCII analogue of `processDuckyLine_unknown` (that
processor has no `'+'` fallback at all). -/
theorem processDuckyLineDirect_unknown (cfg : Config) (st : DuckyState) (line : List Nat)
    (h : ¬ duckyDirectKnown (parseDucky (trimB line)).1)
    (hrem : startsWithB (S "REM") (trimB line) = false) :
    processDuckyLineDirect cfg st line = (st, [.delayEv 25, .delayEv st.defaultDelay]) := by
  simp only [processDuckyLineDirect, hrem]
  rw [duckyDispatchDirect_unknown cfg st _ _ h]
  simp

/-- C9 counterexample: on a script of two unknown-command lines the
as-built driver pass reports the hard-coded `executedCount = 1`
(counting no lines), not the per-line count 2 that the standard loop
produces — so the as-built execution summary does not count such lines
as executed. -/
theorem C9_counterexample :
    (driverPassAsBuilt cfg0 st0 [S "FOOCMD", S "BARCMD"]).2.1 = ⟨1, 1, 0⟩
    ∧ (driverPassAsBuilt cfg0 st0 [S "FOOCMD", S "BARCMD"]).2.1.executedCount ≠ 2
    ∧ (runStandardLoop cfg0 st0 [S "FOOCMD", S "BARCMD"]).2.1 = ⟨2, 2, 0⟩ :=
  ⟨by decide, by decide, by decide⟩

/-- C9 (amended): a non-blank, non-comment line whose command token is
not in the dispatch table and whose text contains no `'+'` is a no-op
with respect to keyboard events in both Ducky processors — the state is
unchanged and the script continues rather than aborting; the standard
counting loop counts such a line as executed (lineCount and
executedCount increase by one, skippedCount does not), while the
as-built driver does not count lines at all and always reports the
hard-coded `executedCount = 1, skippedCount = 0`. -/
theorem C9_amended_unknown_commands :
    (∀ cfg st (line : List Nat),
        ¬ duckyKnown (parseDucky (trimB line)).1 →
        indexOfChar 43 (trimB line) = none →
        startsWithB (S "REM") (trimB line) = false →
        processDuckyLine cfg st line = (st, [.delayEv 25, .delayEv st.defaultDelay]))
    ∧ (∀ cfg st (line : List Nat),
        ¬ duckyDirectKnown (parseDucky (trimB line)).1 →
        startsWithB (S "REM") (trimB line) = false →
        processDuckyLineDirect cfg st line = (st, [.delayEv 25, .delayEv st.defaultDelay]))
    ∧ (∀ td li st sum evs (line : List Nat) rest,
        ¬ duckyKnown (parseDucky (trimB line)).1 →
        indexOfChar 43 (trimB line) = none →
        startsWithB (S "REM") (trimB line) = false →
        trimB line ≠ [] →
        startsWithB (S "//") (trimB line) = false →
        startsWithB (S "#") (trimB line) = false →
        runStdGo ⟨1, td, li⟩ st sum evs (line :: rest)
          = runStdGo ⟨1, td, li⟩ st
              ⟨sum.lineCount + 1, sum.executedCount + 1, sum.skippedCount⟩
              (evs ++ [.delayEv 25, .delayEv st.defaultDelay]) rest) := by
  refine ⟨processDuckyLine_unknown, processDuckyLineDirect_unknown, ?_⟩
  intro td li st sum evs line rest h hplus hrem hne hss hsh
  have hstep : processDuckyLine ⟨1, td, li⟩ st (trimB line)
      = (st, [.delayEv 25, .delayEv st.defaultDelay]) := by
    apply processDuckyLine_unknown
    · rwa [trimB_idem]
    · rwa [trimB_idem]
    · rwa [trimB_idem]
  simp only [runStdGo]
  rw [if_pos ⟨hne, hss, hsh⟩, if_pos ⟨trivial, hrem⟩, hstep]

/-- Witness for C9 (amended) at the unknown command `FOOCMD`. -/
theorem C9_amended_unknown_commands_witness :
    (¬ duckyKnown (parseDucky (trimB (S "FOOCMD"))).1
      ∧ indexOfChar 43 (trimB (S "FOOCMD")) = none
      ∧ startsWithB (S "REM") (trimB (S "FOOCMD")) = false
      ∧ processDuckyLine cfg0 st0 (S "FOOCMD")
          = (st0, [.delayEv 25, .delayEv st0.defaultDelay]))
    ∧ runStdGo ⟨1, 25, true⟩ st0 ⟨0, 0, 0⟩ [] [S "FOOCMD"]
        = runStdGo ⟨1, 25, true⟩ st0 ⟨1, 1, 0⟩
            ([] ++ [.delayEv 25, .delayEv st0.defaultDelay]) [] :=
  ⟨⟨by decide, by decide, by decide,
    C9_amended_unknown_commands.1 cfg0 st0 (S "FOOCMD") (by decide) (by decide) (by decide)⟩,
   C9_amended_unknown_commands.2.2 25 true st0 ⟨0, 0, 0⟩ [] (S "FOOCMD") []
     (by decide) (by decide) (by decide) (by decide) (by decide) (by decide)⟩

/-- C3 counterexample: in the combo line `CTRL+c+DELETE` the
single-character token `c` is resolved through
`typeLayoutIndependentChar`/`pressRawKey`, which issues its own
release-all, so a release-all occurs between token presses (DELETE is
pressed after CTRL and `c` have already been released) and the trace
contains two release-alls, not a single combined one after all
presses. -/
theorem C3_counterexample :
    keyEvents (processDuckyLine cfg0 st0 (S "CTRL+c+DELETE")).2
      = [.press 128, .press 6, .releaseAll, .press 212, .releaseAll]
    ∧ (keyEvents (processDuckyLine cfg0 st0 (S "CTRL+c+DELETE")).2).count .releaseAll = 2 :=
  ⟨by decide, by decide⟩

/-- C3 (amended): a Ducky line containing `'+'` that matches no
dispatch-table command is split on `'+'` into at most 5 tokens — the
first five are kept, later ones silently dropped — and each token is
pressed via `pressKey` in order, followed by a final release-all.  When
every token is a multi-character name other than `SPACE`, the presses
all precede that single release-all (as in the `CTRL+ALT+DELETE`
scenario); but a single-character token (or `SPACE`) emits its own
release-all inside `pressKey`, so such combos release mid-sequence. -/
theorem C3_amended_plus_combo :
    (∀ (line : List Nat), comboTokens line = (dropTrailingNil (splitOnB 43 line)).take 5)
    ∧ (∀ cfg st (line cmd params : List Nat), ¬ duckyKnown cmd →
        (indexOfChar 43 line).isSome = true →
        duckyDispatch cfg st line cmd params
          = (st, evConcatL pressKey (comboTokens line) ++ [.releaseAll]))
    ∧ (∀ (ts : List (List Nat)),
        (∀ t ∈ ts, 2 ≤ (trimB t).length ∧ trimB t ≠ S "SPACE") →
        keyEvents (evConcatL pressKey ts ++ [.releaseAll])
          = ((ts.filterMap (fun t => namedKey (trimB t))).map Ev.press) ++ [.releaseAll])
    ∧ keyEvents (processDuckyLine cfg0 st0 (S "CTRL+ALT+DELETE")).2
        = [.press 128, .press 130, .press 212, .releaseAll] := by
  refine ⟨comboTokens_take_five, ?_, ?_, by decide⟩
  · intro cfg st line cmd params h hplus
    rw [duckyDispatch_unknown cfg st line cmd params h, hplus]
    rfl
  · intro ts hts
    induction ts with
    | nil => rfl
    | cons t ts ih =>
      have ht := hts t (List.mem_cons_self t ts)
      have hts' : ∀ u ∈ ts, 2 ≤ (trimB u).length ∧ trimB u ≠ S "SPACE" :=
        fun u hu => hts u (List.mem_cons_of_mem t hu)
      rcases hk : namedKey (trimB t) with _ | k
      · have hpk : pressKey t = [] := by
          simp only [pressKey]
          rw [if_neg (by omega : ¬ (trimB t).length = 1), if_neg ht.2, hk]
        show keyEvents ((pressKey t ++ evConcatL pressKey ts) ++ [.releaseAll]) = _
        rw [hpk, List.nil_append, ih hts']
        simp [List.filterMap_cons, hk]
      · have hpk : pressKey t = [.press k] := by
          simp only [pressKey]
          rw [if_neg (by omega : ¬ (trimB t).length = 1), if_neg ht.2, hk]
        show keyEvents ((pressKey t ++ evConcatL pressKey ts) ++ [.releaseAll]) = _
        rw [hpk, List.append_assoc, keyEvents_append, ih hts']
        simp [List.filterMap_cons, hk, keyEvents, isKeyEv]

/-- Witness for C3 (amended) at the unknown combo command `A+B` and the
named-token list of `CTRL+ALT+DELETE`. -/
theorem C3_amended_plus_combo_witness :
    (¬ duckyKnown (S "A+B") ∧ (indexOfChar 43 (S "A+B")).isSome = true
      ∧ duckyDispatch cfg0 st0 (S "A+B") (S "A+B") []
          = (st0, evConcatL pressKey (comboTokens (S "A+B")) ++ [.releaseAll]))
    ∧ ((∀ t ∈ [S "CTRL", S "ALT", S "DELETE"], 2 ≤ (trimB t).length ∧ trimB t ≠ S "SPACE")
      ∧ keyEvents (evConcatL pressKey [S "CTRL", S "ALT", S "DELETE"] ++ [.releaseAll])
          = (([S "CTRL", S "ALT", S "DELETE"].filterMap
              (fun t => namedKey (trimB t))).map Ev.press) ++ [.releaseAll]) :=
  ⟨⟨by decide, by decide,
    C3_amended_plus_combo.2.1 cfg0 st0 (S "A+B") (S "A+B") [] (by decide) (by decide)⟩,
   ⟨by decide,
    C3_amended_plus_combo.2.2.1 [S "CTRL", S "ALT", S "DELETE"] (by decide)⟩⟩

theorem noRel_of_keyEvents (tr l : List Ev) (hke : keyEvents tr = l)
    (hl : ∀ e ∈ l, isRelEv e = false) : ∀ e ∈ tr, isRelEv e = false := by
  intro e he
  by_cases hr : isRelEv e = true
  · have hkey : isKeyEv e = true := by cases e <;> simp_all [isRelEv, isKeyEv]
    have hm : e ∈ keyEvents tr := List.mem_filter.mpr ⟨he, hkey⟩
    rw [hke] at hm
    rw [hl e hm] at hr
    exact absurd hr (by decide)
  · simpa using hr

theorem comboOK_ke_primary (x : Nat) (tr : List Ev)
    (hke : keyEvents tr = [.press x, .releaseAll]) : comboOK ∅ (some x) tr := by
  refine ⟨noRel_of_keyEvents tr _ hke (by simp [isRelEv]), ?_, ?_, ?_⟩ <;> rw [hke]
  · simp [List.takeWhile_cons, notRA, downF, downStep, pset]
  · simp [List.dropWhile_cons, notRA, isPressEv]
  · simp [downF, downStep]

theorem comboOK_ke_mod_alone (m : Nat) (tr : List Ev)
    (hke : keyEvents tr = [.press m, .releaseAll]) : comboOK {m} none tr := by
  refine ⟨noRel_of_keyEvents tr _ hke (by simp [isRelEv]), ?_, ?_, ?_⟩ <;> rw [hke]
  · simp [List.takeWhile_cons, notRA, downF, downStep, pset]
  · simp [List.dropWhile_cons, notRA, isPressEv]
  · simp [downF, downStep]

theorem comboOK_ke_mod_primary (m x : Nat) (tr : List Ev)
    (hke : keyEvents tr = [.press m, .press x, .releaseAll]) : comboOK {m} (some x) tr := by
  refine ⟨noRel_of_keyEvents tr _ hke (by simp [isRelEv]), ?_, ?_, ?_⟩ <;> rw [hke]
  · simp only [List.takeWhile_cons, notRA, if_true]
    show downF [Ev.press m, Ev.press x] = _
    simp [downF, downStep, pset, Finset.ext_iff, or_comm]
  · simp [List.dropWhile_cons, notRA, isPressEv]
  · simp [downF, downStep]

theorem comboOK_ke_mod_primary_double_ra (m x : Nat) (tr : List Ev)
    (hke : keyEvents tr = [.press m, .press x, .releaseAll, .releaseAll]) :
    comboOK {m} (some x) tr := by
  refine ⟨noRel_of_keyEvents tr _ hke (by simp [isRelEv]), ?_, ?_, ?_⟩ <;> rw [hke]
  · simp only [List.takeWhile_cons, notRA, if_true]
    show downF [Ev.press m, Ev.press x] = _
    simp [downF, downStep, pset, Finset.ext_iff, or_comm]
  · simp [List.dropWhile_cons, notRA, isPressEv]
  · simp [downF, downStep]

/-- `pressRawKey` satisfies the combo contract: requested modifiers are
Shift when `withShift`, the primary is the raw keycode. -/
theorem comboOK_pressRawKey (k : Nat) (ws : Bool) :
    comboOK (if ws then {129} else ∅) (some k) (pressRawKey k ws) := by
  cases ws with
  | false =>
    exact comboOK_ke_primary k _ (by simp [pressRawKey, keyEvents, isKeyEv])
  | true =>
    exact comboOK_ke_mod_primary 129 k _ (by simp [pressRawKey, keyEvents, isKeyEv])

/-- The `CTRL` handler satisfies the combo contract for every parameter
(as delivered by the parser, hence trim-fixed). -/
theorem comboOK_duckyCTRL (cfg : Config) (p : List Nat) (hp : trimB p = p) :
    comboOK {128} (modParamPrimary cfg p) (duckyCTRL cfg p) := by
  rcases p with _ | ⟨c, p'⟩
  · have h1 : duckyCTRL cfg [] = [.press 128, .delayEv 200, .releaseAll] := by
      unfold duckyCTRL; rw [if_neg (by simp)]
    rw [show modParamPrimary cfg [] = none from rfl, h1]
    exact comboOK_ke_mod_alone 128 _ (by simp [keyEvents, isKeyEv])
  · rcases p' with _ | ⟨c2, p''⟩
    · by_cases hLI : cfg.useLayoutIndependent ∧ 97 ≤ [c].headD 0 ∧ [c].headD 0 ≤ 122
      · have h1 : duckyCTRL cfg [c]
            = [.press 128, .delayEv 200, .press (4 + (c - 97)), .delayEv 200, .releaseAll] := by
          unfold duckyCTRL
          rw [if_pos (by simp : (0 : Nat) < [c].length),
            if_pos (by simp : ([c] : List Nat).length = 1), if_pos hLI]
          rfl
        have h2 : modParamPrimary cfg [c] = some (4 + (c - 97)) := by
          unfold modParamPrimary
          rw [if_neg (by simp : ¬([c] : List Nat) = []),
            if_pos (by simp : ([c] : List Nat).length = 1), if_pos hLI]
          rfl
        rw [h1, h2]
        exact comboOK_ke_mod_primary 128 _ _ (by simp [keyEvents, isKeyEv])
      · have h1 : duckyCTRL cfg [c]
            = [.press 128, .delayEv 200, .press c, .delayEv 200, .releaseAll] := by
          unfold duckyCTRL
          rw [if_pos (by simp : (0 : Nat) < [c].length),
            if_pos (by simp : ([c] : List Nat).length = 1), if_neg hLI]
          rfl
        have h2 : modParamPrimary cfg [c] = some c := by
          unfold modParamPrimary
          rw [if_neg (by simp : ¬([c] : List Nat) = []),
            if_pos (by simp : ([c] : List Nat).length = 1), if_neg hLI]
          rfl
        rw [h1, h2]
        exact comboOK_ke_mod_primary 128 _ _ (by simp [keyEvents, isKeyEv])
    · have hlen : ¬ (c :: c2 :: p'').length = 1 := by simp
      have h1 : duckyCTRL cfg (c :: c2 :: p'')
          = [.press 128, .delayEv 200]
            ++ (pressKey (c :: c2 :: p'') ++ [.delayEv 200, .releaseAll]) := by
        unfold duckyCTRL
        rw [if_pos (by simp : (0 : Nat) < (c :: c2 :: p'').length), if_neg hlen]
      by_cases hsp : (c :: c2 :: p'') = S "SPACE"
      · have hpk : pressKey (c :: c2 :: p'') = pressRawKey 44 false := by
          simp only [pressKey, hp]
          rw [if_neg hlen, if_pos hsp]
          rfl
        have h2 : modParamPrimary cfg (c :: c2 :: p'') = some 44 := by
          unfold modParamPrimary
          rw [if_neg (by simp), if_neg hlen, if_pos hsp]
        rw [h1, h2, hpk]
        exact comboOK_ke_mod_primary_double_ra 128 44 _
          (by simp [pressRawKey, keyEvents, isKeyEv])
      · rcases hk : namedKey (c :: c2 :: p'') with _ | k
        · have hpk : pressKey (c :: c2 :: p'') = [] := by
            simp only [pressKey, hp]
            rw [if_neg hlen, if_neg hsp, hk]
          have h2 : modParamPrimary cfg (c :: c2 :: p'') = none := by
            unfold modParamPrimary
            rw [if_neg (by simp), if_neg hlen, if_neg hsp, hk]
          rw [h1, h2, hpk]
          exact comboOK_ke_mod_alone 128 _ (by simp [keyEvents, isKeyEv])
        · have hpk : pressKey (c :: c2 :: p'') = [.press k] := by
            simp only [pressKey, hp]
            rw [if_neg hlen, if_neg hsp, hk]
          have h2 : modParamPrimary cfg (c :: c2 :: p'') = some k := by
            unfold modParamPrimary
            rw [if_neg (by simp), if_neg hlen, if_neg hsp, hk]
          rw [h1, h2, hpk]
          exact comboOK_ke_mod_primary 128 k _ (by simp [keyEvents, isKeyEv])

/-- The `ALT` handler satisfies the combo contract for every parameter
(as delivered by the parser, hence trim-fixed). -/
theorem comboOK_duckyALT (cfg : Config) (p : List Nat) (hp : trimB p = p) :
    comboOK {130} (modParamPrimary cfg p) (duckyALT cfg p) := by
  rcases p with _ | ⟨c, p'⟩
  · have h1 : duckyALT cfg [] = [.press 130, .delayEv 200, .releaseAll] := by
      unfold duckyALT; rw [if_neg (by simp)]
    rw [show modParamPrimary cfg [] = none from rfl, h1]
    exact comboOK_ke_mod_alone 130 _ (by simp [keyEvents, isKeyEv])
  · rcases p' with _ | ⟨c2, p''⟩
    · by_cases hLI : cfg.useLayoutIndependent ∧ 97 ≤ [c].headD 0 ∧ [c].headD 0 ≤ 122
      · have h1 : duckyALT cfg [c]
            = [.press 130, .delayEv 200, .press (4 + (c - 97)), .delayEv 200, .releaseAll] := by
          unfold duckyALT
          rw [if_pos (by simp : (0 : Nat) < [c].length),
            if_pos (by simp : ([c] : List Nat).length = 1), if_pos hLI]
          rfl
        have h2 : modParamPrimary cfg [c] = some (4 + (c - 97)) := by
          unfold modParamPrimary
          rw [if_neg (by simp : ¬([c] : List Nat) = []),
            if_pos (by simp : ([c] : List Nat).length = 1), if_pos hLI]
          rfl
        rw [h1, h2]
        exact comboOK_ke_mod_primary 130 _ _ (by simp [keyEvents, isKeyEv])
      · have h1 : duckyALT cfg [c]
            = [.press 130, .delayEv 200, .press c, .delayEv 200, .releaseAll] := by
          unfold duckyALT
          rw [if_pos (by simp : (0 : Nat) < [c].length),
            if_pos (by simp : ([c] : List Nat).length = 1), if_neg hLI]
          rfl
        have h2 : modParamPrimary cfg [c] = some c := by
          unfold modParamPrimary
          rw [if_neg (by simp : ¬([c] : List Nat) = []),
            if_pos (by simp : ([c] : List Nat).length = 1), if_neg hLI]
          rfl
        rw [h1, h2]
        exact comboOK_ke_mod_primary 130 _ _ (by simp [keyEvents, isKeyEv])
    · have hlen : ¬ (c :: c2 :: p'').length = 1 := by simp
      have h1 : duckyALT cfg (c :: c2 :: p'')
          = [.press 130, .delayEv 200]
            ++ (pressKey (c :: c2 :: p'') ++ [.delayEv 200, .releaseAll]) := by
        unfold duckyALT
        rw [if_pos (by simp : (0 : Nat) < (c :: c2 :: p'').length), if_neg hlen]
      by_cases hsp : (c :: c2 :: p'') = S "SPACE"
      · have hpk : pressKey (c :: c2 :: p'') = pressRawKey 44 false := by
          simp only [pressKey, hp]
          rw [if_neg hlen, if_pos hsp]
          rfl
        have h2 : modParamPrimary cfg (c :: c2 :: p'') = some 44 := by
          unfold modParamPrimary
          rw [if_neg (by simp), if_neg hlen, if_pos hsp]
        rw [h1, h2, hpk]
        exact comboOK_ke_mod_primary_double_ra 130 44 _
          (by simp [pressRawKey, keyEvents, isKeyEv])
      · rcases hk : namedKey (c :: c2 :: p'') with _ | k
        · have hpk : pressKey (c :: c2 :: p'') = [] := by
            simp only [pressKey, hp]
            rw [if_neg hlen, if_neg hsp, hk]
          have h2 : modParamPrimary cfg (c :: c2 :: p'') = none := by
            unfold modParamPrimary
            rw [if_neg (by simp), if_neg hlen, if_neg hsp, hk]
          rw [h1, h2, hpk]
          exact comboOK_ke_mod_alone 130 _ (by simp [keyEvents, isKeyEv])
        · have hpk : pressKey (c :: c2 :: p'') = [.press k] := by
            simp only [pressKey, hp]
            rw [if_neg hlen, if_neg hsp, hk]
          have h2 : modParamPrimary cfg (c :: c2 :: p'') = some k := by
            unfold modParamPrimary
            rw [if_neg (by simp), if_neg hlen, if_neg hsp, hk]
          rw [h1, h2, hpk]
          exact comboOK_ke_mod_primary 130 k _ (by simp [keyEvents, isKeyEv])

/-- The `GUI`/`WINDOWS` handler satisfies the combo contract for every parameter
(as delivered by the parser, hence trim-fixed). -/
theorem comboOK_duckyGUI (cfg : Config) (p : List Nat) (hp : trimB p = p) :
    comboOK {131} (modParamPrimary cfg p) (duckyGUI cfg p) := by
  rcases p with _ | ⟨c, p'⟩
  · have h1 : duckyGUI cfg [] = [.press 131, .delayEv 100, .releaseAll] := by
      unfold duckyGUI; rw [if_neg (by simp)]
    rw [show modParamPrimary cfg [] = none from rfl, h1]
    exact comboOK_ke_mod_alone 131 _ (by simp [keyEvents, isKeyEv])
  · rcases p' with _ | ⟨c2, p''⟩
    · by_cases hLI : cfg.useLayoutIndependent ∧ 97 ≤ [c].headD 0 ∧ [c].headD 0 ≤ 122
      · have h1 : duckyGUI cfg [c]
            = [.press 131, .delayEv 50, .press (4 + (c - 97)), .delayEv 100, .releaseAll] := by
          unfold duckyGUI
          rw [if_pos (by simp : (0 : Nat) < [c].length),
            if_pos (by simp : ([c] : List Nat).length = 1), if_pos hLI]
          rfl
        have h2 : modParamPrimary cfg [c] = some (4 + (c - 97)) := by
          unfold modParamPrimary
          rw [if_neg (by simp : ¬([c] : List Nat) = []),
            if_pos (by simp : ([c] : List Nat).length = 1), if_pos hLI]
          rfl
        rw [h1, h2]
        exact comboOK_ke_mod_primary 131 _ _ (by simp [keyEvents, isKeyEv])
      · have h1 : duckyGUI cfg [c]
            = [.press 131, .delayEv 50, .press c, .delayEv 100, .releaseAll] := by
          unfold duckyGUI
          rw [if_pos (by simp : (0 : Nat) < [c].length),
            if_pos (by simp : ([c] : List Nat).length = 1), if_neg hLI]
          rfl
        have h2 : modParamPrimary cfg [c] = some c := by
          unfold modParamPrimary
          rw [if_neg (by simp : ¬([c] : List Nat) = []),
            if_pos (by simp : ([c] : List Nat).length = 1), if_neg hLI]
          rfl
        rw [h1, h2]
        exact comboOK_ke_mod_primary 131 _ _ (by simp [keyEvents, isKeyEv])
    · have hlen : ¬ (c :: c2 :: p'').length = 1 := by simp
      have h1 : duckyGUI cfg (c :: c2 :: p'')
          = [.press 131, .delayEv 50]
            ++ (pressKey (c :: c2 :: p'') ++ [.delayEv 100, .releaseAll]) := by
        unfold duckyGUI
        rw [if_pos (by simp : (0 : Nat) < (c :: c2 :: p'').length), if_neg hlen]
      by_cases hsp : (c :: c2 :: p'') = S "SPACE"
      · have hpk : pressKey (c :: c2 :: p'') = pressRawKey 44 false := by
          simp only [pressKey, hp]
          rw [if_neg hlen, if_pos hsp]
          rfl
        have h2 : modParamPrimary cfg (c :: c2 :: p'') = some 44 := by
          unfold modParamPrimary
          rw [if_neg (by simp), if_neg hlen, if_pos hsp]
        rw [h1, h2, hpk]
        exact comboOK_ke_mod_primary_double_ra 131 44 _
          (by simp [pressRawKey, keyEvents, isKeyEv])
      · rcases hk : namedKey (c :: c2 :: p'') with _ | k
        · have hpk : pressKey (c :: c2 :: p'') = [] := by
            simp only [pressKey, hp]
            rw [if_neg hlen, if_neg hsp, hk]
          have h2 : modParamPrimary cfg (c :: c2 :: p'') = none := by
            unfold modParamPrimary
            rw [if_neg (by simp), if_neg hlen, if_neg hsp, hk]
          rw [h1, h2, hpk]
          exact comboOK_ke_mod_alone 131 _ (by simp [keyEvents, isKeyEv])
        · have hpk : pressKey (c :: c2 :: p'') = [.press k] := by
            simp only [pressKey, hp]
            rw [if_neg hlen, if_neg hsp, hk]
          have h2 : modParamPrimary cfg (c :: c2 :: p'') = some k := by
            unfold modParamPrimary
            rw [if_neg (by simp), if_neg hlen, if_neg hsp, hk]
          rw [h1, h2, hpk]
          exact comboOK_ke_mod_primary 131 k _ (by simp [keyEvents, isKeyEv])

/-- The `SHIFT` handler satisfies the combo contract for every
parameter that is not a single lowercase letter (that case bypasses the
state machine entirely, emitting a literal write — claim C6). -/
theorem comboOK_duckySHIFT (cfg : Config) (p : List Nat) (hp : trimB p = p)
    (hnl : ¬ ∃ c, p = [c] ∧ 97 ≤ c ∧ c ≤ 122) :
    comboOK {129} (shiftParamPrimary cfg p) (duckySHIFT cfg p) := by
  rcases p with _ | ⟨c, p'⟩
  · have h1 : duckySHIFT cfg [] = [.press 129, .delayEv 250, .releaseAll, .delayEv 50] := by
      unfold duckySHIFT; rw [if_neg (by simp)]
    rw [show shiftParamPrimary cfg [] = none from rfl, h1]
    exact comboOK_ke_mod_alone 129 _ (by simp [keyEvents, isKeyEv])
  · rcases p' with _ | ⟨c2, p''⟩
    · have hcl : ¬ (97 ≤ [c].headD 0 ∧ [c].headD 0 ≤ 122) := by
        intro hc; exact hnl ⟨c, rfl, hc.1, hc.2⟩
      by_cases hdig : cfg.useLayoutIndependent ∧ 48 ≤ [c].headD 0 ∧ [c].headD 0 ≤ 57
      · have h1 : duckySHIFT cfg [c]
            = [.press 129, .delayEv 250,
               .press (if [c].headD 0 = 48 then 39 else 30 + ([c].headD 0 - 49)),
               .delayEv 250, .releaseAll, .delayEv 50] := by
          unfold duckySHIFT
          rw [if_pos (by simp : (0 : Nat) < [c].length),
            if_pos (by simp : ([c] : List Nat).length = 1)]
          show (if 97 ≤ [c].headD 0 ∧ [c].headD 0 ≤ 122 then _ else _) = _
          rw [if_neg hcl, if_pos hdig]
          rfl
        have h2 : shiftParamPrimary cfg [c]
            = some (if [c].headD 0 = 48 then 39 else 30 + ([c].headD 0 - 49)) := by
          unfold shiftParamPrimary
          rw [if_neg (by simp : ¬([c] : List Nat) = []),
            if_pos (by simp : ([c] : List Nat).length = 1), if_pos hdig]
        rw [h1, h2]
        exact comboOK_ke_mod_primary 129 _ _ (by simp [keyEvents, isKeyEv])
      · have h1 : duckySHIFT cfg [c]
            = [.press 129, .delayEv 250, .press ([c].headD 0),
               .delayEv 250, .releaseAll, .delayEv 50] := by
          unfold duckySHIFT
          rw [if_pos (by simp : (0 : Nat) < [c].length),
            if_pos (by simp : ([c] : List Nat).length = 1)]
          show (if 97 ≤ [c].headD 0 ∧ [c].headD 0 ≤ 122 then _ else _) = _
          rw [if_neg hcl, if_neg hdig]
          rfl
        have h2 : shiftParamPrimary cfg [c] = some ([c].headD 0) := by
          unfold shiftParamPrimary
          rw [if_neg (by simp : ¬([c] : List Nat) = []),
            if_pos (by simp : ([c] : List Nat).length = 1), if_neg hdig]
        rw [h1, h2]
        exact comboOK_ke_mod_primary 129 _ _ (by simp [keyEvents, isKeyEv])
    · have hlen : ¬ (c :: c2 :: p'').length = 1 := by simp
      have hne : ¬ (c :: c2 :: p'') = ([] : List Nat) := by simp
      unfold duckySHIFT shiftParamPrimary
      rw [if_pos (by simp : (0 : Nat) < (c :: c2 :: p'').length), if_neg hlen,
        if_neg hne, if_neg hlen]
      by_cases hR : eqIC (c :: c2 :: p'') (S "RIGHT") = true
          ∨ eqIC (c :: c2 :: p'') (S "RIGHTARROW") = true
      · rw [if_pos hR, if_pos hR]
        exact comboOK_ke_mod_primary 129 215 _ (by simp [keyEvents, isKeyEv])
      · rw [if_neg hR, if_neg hR]
        by_cases hL : eqIC (c :: c2 :: p'') (S "LEFT") = true
            ∨ eqIC (c :: c2 :: p'') (S "LEFTARROW") = true
        · rw [if_pos hL, if_pos hL]
          exact comboOK_ke_mod_primary 129 216 _ (by simp [keyEvents, isKeyEv])
        · rw [if_neg hL, if_neg hL]
          by_cases hU : eqIC (c :: c2 :: p'') (S "UP") = true
              ∨ eqIC (c :: c2 :: p'') (S "UPARROW") = true
          · rw [if_pos hU, if_pos hU]
            exact comboOK_ke_mod_primary 129 218 _ (by simp [keyEvents, isKeyEv])
          · rw [if_neg hU, if_neg hU]
            by_cases hD : eqIC (c :: c2 :: p'') (S "DOWN") = true
                ∨ eqIC (c :: c2 :: p'') (S "DOWNARROW") = true
            · rw [if_pos hD, if_pos hD]
              exact comboOK_ke_mod_primary 129 217 _ (by simp [keyEvents, isKeyEv])
            · rw [if_neg hD, if_neg hD]
              by_cases hT : eqIC (c :: c2 :: p'') (S "TAB") = true
              · rw [if_pos hT, if_pos hT]
                exact comboOK_ke_mod_primary 129 179 _ (by simp [keyEvents, isKeyEv])
              · rw [if_neg hT, if_neg hT]
                by_cases hsp : (c :: c2 :: p'') = S "SPACE"
                · have hpk : pressKey (c :: c2 :: p'') = pressRawKey 44 false := by
                    simp only [pressKey, hp]
                    rw [if_neg hlen, if_pos hsp]
                    rfl
                  rw [if_pos hsp, hpk]
                  exact comboOK_ke_mod_primary_double_ra 129 44 _
                    (by simp [pressRawKey, keyEvents, isKeyEv])
                · rw [if_neg hsp]
                  rcases hk : namedKey (c :: c2 :: p'') with _ | k
                  · have hpk : pressKey (c :: c2 :: p'') = [] := by
                      simp only [pressKey, hp]
                      rw [if_neg hlen, if_neg hsp, hk]
                    rw [hpk]
                    exact comboOK_ke_mod_alone 129 _ (by simp [keyEvents, isKeyEv])
                  · have hpk : pressKey (c :: c2 :: p'') = [.press k] := by
                      simp only [pressKey, hp]
                      rw [if_neg hlen, if_neg hsp, hk]
                    rw [hpk]
                    exact comboOK_ke_mod_primary 129 k _ (by simp [keyEvents, isKeyEv])

/-- C8: every modifier-combo emission through the modifier/key state
machine — `pressRawKey` and the `CTRL`/`CONTROL`, `ALT`,
`GUI`/`WINDOWS` and `SHIFT` handlers (for `SHIFT`, excluding the
single-lowercase-letter literal-write shortcut, which bypasses the
state machine) — satisfies the combo contract `comboOK`: no individual
release is ever emitted; at the instant the primary key is pressed the
down-set is exactly the requested modifier set plus the primary key;
every key pressed for the combo is released together by a release-all
(nothing is pressed after the first release-all); and afterwards the
down-set is empty.  The final conjunct ties the handlers to the
dispatch chain. -/
theorem C8_combo_down_set :
    (∀ k ws, comboOK (if ws then {129} else ∅) (some k) (pressRawKey k ws))
    ∧ (∀ cfg (p : List Nat), trimB p = p →
        comboOK {128} (modParamPrimary cfg p) (duckyCTRL cfg p))
    ∧ (∀ cfg (p : List Nat), trimB p = p →
        comboOK {130} (modParamPrimary cfg p) (duckyALT cfg p))
    ∧ (∀ cfg (p : List Nat), trimB p = p →
        comboOK {131} (modParamPrimary cfg p) (duckyGUI cfg p))
    ∧ (∀ cfg (p : List Nat), trimB p = p → (¬ ∃ c, p = [c] ∧ 97 ≤ c ∧ c ≤ 122) →
        comboOK {129} (shiftParamPrimary cfg p) (duckySHIFT cfg p))
    ∧ (∀ cfg st (line params : List Nat),
        duckyDispatch cfg st line (S "CTRL") params = (st, duckyCTRL cfg params)
        ∧ duckyDispatch cfg st line (S "CONTROL") params = (st, duckyCTRL cfg params)
        ∧ duckyDispatch cfg st line (S "ALT") params = (st, duckyALT cfg params)
        ∧ duckyDispatch cfg st line (S "GUI") params = (st, duckyGUI cfg params)
        ∧ duckyDispatch cfg st line (S "WINDOWS") params = (st, duckyGUI cfg params)
        ∧ duckyDispatch cfg st line (S "SHIFT") params = (st, duckySHIFT cfg params)) :=
  ⟨comboOK_pressRawKey, comboOK_duckyCTRL, comboOK_duckyALT, comboOK_duckyGUI,
   comboOK_duckySHIFT,
   fun _ _ _ _ => ⟨rfl, rfl, rfl, rfl, rfl, rfl⟩⟩

/-- Witness for C8 at `CTRL DELETE` and `SHIFT 1`. -/
theorem C8_combo_down_set_witness :
    (trimB (S "DELETE") = S "DELETE"
      ∧ comboOK {128} (modParamPrimary cfg0 (S "DELETE")) (duckyCTRL cfg0 (S "DELETE")))
    ∧ ((¬ ∃ c, ([49] : List Nat) = [c] ∧ 97 ≤ c ∧ c ≤ 122)
      ∧ comboOK {129} (shiftParamPrimary cfg0 [49]) (duckySHIFT cfg0 [49])) :=
  ⟨⟨by decide, C8_combo_down_set.2.1 cfg0 (S "DELETE") (by decide)⟩,
   ⟨by rintro ⟨c, hc, h1, h2⟩; simp at hc; omega,
    C8_combo_down_set.2.2.2.2.1 cfg0 [49] (by decide)
      (by rintro ⟨c, hc, h1, h2⟩; simp at hc; omega)⟩⟩
